import Mathlib

/-! Token lifecycle of the whatsapp-lead backend

A shallow embedding of `backend/internal/auth/auth.go`,
`backend/internal/models/entity/token.go`,
`backend/internal/repository/token_repository.go`,
`backend/internal/handlers/auth_handler.go`,
`backend/internal/middleware/auth_middleware.go` and the logout route of
`backend/cmd/api/main.go`, followed by theorems about it.

Conventions of the embedding.

* Go functions returning `(value, error)` return a product whose error
  component is an `Option Error` (`none` is `nil`); the value component keeps
  Go's zero value (`""`, `none`) on the error paths that return it.
* The `refresh_tokens` table is a list of rows, threaded through every
  operation that touches the database and returned as the last component.
* Everything a function reads from outside the program is an explicit
  argument: each reading of `time.Now()`, the bytes of `crypto/rand`, the
  value of an environment variable, and for every database call the error
  with which the call fails for a reason other than the contents of the
  table (`fault`, for instance the 5 second timeout).  A faulted call leaves
  the table as it was.
* `golang-jwt/jwt/v5` and the standard library are not part of the
  repository; the functions the program calls from them are the fields of
  `Lib` (uninterpreted) or are transcribed next to their use.
-/

namespace WhatsappLead

/-! ## Time -/

/-- An instant: nanoseconds since the Unix epoch (`time.Time`). -/
abbrev Time := Int

/-- A signed span in nanoseconds (`time.Duration`). -/
abbrev Duration := Int

/-- Go `time.Second`. -/
def Second : Duration := 1000000000

/-- Go `time.Minute`. -/
def Minute : Duration := 60 * Second

/-- Go `time.Hour`. -/
def Hour : Duration := 60 * Minute

/-- The exponent of the highest power of two that is at most `n`, and 0 for
`n < 2`; `fuel` bounds the number of halvings. -/
def log2Fuel : Nat → Nat → Nat
  | 0, _ => 0
  | fuel + 1, n => if n < 2 then 0 else log2Fuel fuel (n / 2) + 1

/-- The fraction `num / den` multiplied by `2 ^ t`, as numerator and
denominator. -/
def scaleFraction (num den : Nat) (t : Int) : Nat × Nat :=
  match t with
  | Int.ofNat k => (num * 2 ^ k, den)
  | Int.negSucc k => (num, den * 2 ^ (k + 1))

/-- The natural number nearest to `num / den`, the even one of two that are
equally near. -/
def roundHalfEven (num den : Nat) : Nat :=
  if 2 * (num % den) < den then num / den
  else if den < 2 * (num % den) then num / den + 1
  else if (num / den) % 2 = 0 then num / den
  else num / den + 1

/-- The `float64` nearest to the fraction `num / den` (`den` positive; IEEE 754
binary64, round to nearest, ties to even), as numerator and denominator.  With
`e` the exponent of the highest power of two that is at most the fraction, the
result is the multiple of `2 ^ (e - 52)` nearest to it.  The magnitudes that
occur here lie between `1e-9` and `1e10`, far from the subnormal numbers and
from overflow. -/
def float64 (num den : Nat) : Nat × Nat :=
  let k : Int := (log2Fuel num num : Int) - (log2Fuel den den : Int)
  let low := scaleFraction num den (-k)
  let e : Int := if low.2 ≤ low.1 then k else k - 1
  let scaled := scaleFraction num den (52 - e)
  scaleFraction (roundHalfEven scaled.1 scaled.2) 1 (e - 52)

/-- Go `time.Duration.Seconds` for a duration of magnitude `n` nanoseconds,
`float64(sec) + float64(nsec)/1e9` with `sec := d / Second` and
`nsec := d % Second`, as numerator and denominator.  Quotient and remainder of
Go carry the sign of `d` and the rounding is symmetric, so the result for a
negative duration is the negative of the one for its magnitude. -/
def secondsOf (n : Nat) : Nat × Nat :=
  let sec := float64 (n / 1000000000) 1
  let nsec := float64 (n % 1000000000) 1
  let billion := float64 1000000000 1
  let quot := float64 (nsec.1 * billion.2) (nsec.2 * billion.1)
  float64 (sec.1 * quot.2 + quot.1 * sec.2) (sec.2 * quot.2)

/-! ## Errors -/

/-- The error values the program distinguishes: the three sentinels of package
`auth`, `sql.ErrNoRows`, and any other error, identified by its message. -/
inductive Error where
  | ErrInvalidToken
  | ErrExpiredToken
  | ErrInvalidCredentials
  | ErrNoRows
  | other (msg : String)
  deriving DecidableEq

/-! ## entity/token.go, entity/user.go -/

/-- Go `entity.RefreshToken`. -/
structure RefreshToken where
  ID : Int
  UserID : Int
  Token : String
  ExpiresAt : Time
  CreatedAt : Time
  IsValid : Bool
  deriving DecidableEq

/-- Go `(*RefreshToken).IsExpired`: `time.Now().After(rt.ExpiresAt)`, with `now`
the reading of the clock. -/
def RefreshToken.IsExpired (rt : RefreshToken) (now : Time) : Bool :=
  decide (rt.ExpiresAt < now)

/-- Go `(*RefreshToken).Invalidate`. -/
def RefreshToken.Invalidate (rt : RefreshToken) : RefreshToken :=
  { rt with IsValid := false }

/-- Go `entity.NewRefreshToken`.  The literal reads the clock twice, first for
`ExpiresAt` (`now1`), then for `CreatedAt` (`now2`); `ID` keeps its zero
value. -/
def NewRefreshToken (userID : Int) (token : String) (expiresIn : Duration)
    (now1 now2 : Time) : RefreshToken :=
  { ID := 0
    UserID := userID
    Token := token
    ExpiresAt := now1 + expiresIn
    CreatedAt := now2
    IsValid := true }

/-- Go `entity.User`. -/
structure User where
  ID : Int
  Name : String
  Email : String
  Password : String
  CreatedAt : Time
  UpdatedAt : Time
  deriving DecidableEq

/-! ## repository/token_repository.go -/

/-- The rows of table `refresh_tokens`, oldest first. -/
abbrev Table := List RefreshToken

/-- The error of an `INSERT` that breaks `token VARCHAR(255) NOT NULL UNIQUE`
(`pkg/database/postgres.go`, `MigrateTables`). -/
def uniqueViolation : Error :=
  Error.other "pq: duplicate key value violates unique constraint"

/-- Go `(*RefreshTokenRepository).Create`: `INSERT INTO refresh_tokens ...
RETURNING id`.  `newID` is the value the `SERIAL` column draws for the row.
The insert is refused when a row with the same `token` exists.  On success the
row is stored and `token.ID` is set through the pointer; on failure the entity
is left as it was. -/
def RefreshTokenRepository.Create (db : Table) (token : RefreshToken) (newID : Int)
    (fault : Option Error) : Option Error × RefreshToken × Table :=
  match fault with
  | some e => (some e, token, db)
  | none =>
    if db.any (fun r => r.Token == token.Token) then
      (some uniqueViolation, token, db)
    else
      (none, { token with ID := newID }, db ++ [{ token with ID := newID }])

/-- Go `(*RefreshTokenRepository).GetByToken`: `SELECT ... WHERE token = $1`,
scanned with `QueryRow`, which yields the first matching row or
`sql.ErrNoRows`. -/
def RefreshTokenRepository.GetByToken (db : Table) (token : String)
    (fault : Option Error) : Option RefreshToken × Option Error :=
  match fault with
  | some e => (none, some e)
  | none =>
    match db.find? (fun r => r.Token == token) with
    | none => (none, some Error.ErrNoRows)
    | some r => (some r, none)

/-- Go `(*RefreshTokenRepository).Invalidate`:
`UPDATE refresh_tokens SET is_valid = false WHERE token = $1`. -/
def RefreshTokenRepository.Invalidate (db : Table) (token : String)
    (fault : Option Error) : Option Error × Table :=
  match fault with
  | some e => (some e, db)
  | none => (none, db.map (fun r => if r.Token == token then { r with IsValid := false } else r))

/-- Go `(*RefreshTokenRepository).InvalidateAllForUser`:
`UPDATE refresh_tokens SET is_valid = false WHERE user_id = $1`. -/
def RefreshTokenRepository.InvalidateAllForUser (db : Table) (userID : Int)
    (fault : Option Error) : Option Error × Table :=
  match fault with
  | some e => (some e, db)
  | none => (none, db.map (fun r => if r.UserID == userID then { r with IsValid := false } else r))

/-- The schema invariant `token ... UNIQUE`: no two rows carry the same token. -/
def TokensUnique (db : Table) : Prop :=
  (db.map (fun r => r.Token)).Nodup

/-! ## The library interface: golang-jwt/jwt/v5, crypto/hmac, encoding/base64 -/

/-- The hash of an HMAC signing method. -/
inductive HashAlg where
  | SHA256
  | SHA384
  | SHA512
  deriving DecidableEq

/-- A signing method registered with the jwt library: one of the three values
of type `*jwt.SigningMethodHMAC` (HS256, HS384, HS512), or a registered method
of another type, named by its `alg` value (RS256, ES256, none, ...). -/
inductive SigningMethod where
  | HMAC (h : HashAlg)
  | other (alg : String)
  deriving DecidableEq

/-- Go `jwt.SigningMethodHS256`. -/
def SigningMethodHS256 : SigningMethod := SigningMethod.HMAC HashAlg.SHA256

/-- Go `jwt.RegisteredClaims`; an absent numeric date is `none`. -/
structure RegisteredClaims where
  Issuer : String
  Subject : String
  Audience : List String
  ExpiresAt : Option Time
  NotBefore : Option Time
  IssuedAt : Option Time
  ID : String
  deriving DecidableEq

/-- Go `auth.TokenClaims`, which embeds `jwt.RegisteredClaims`. -/
structure TokenClaims extends RegisteredClaims where
  UserID : Int
  Email : String
  deriving DecidableEq

/-- What the parser reads from a compact token: the method named by the
header, the claims, the text that was signed (the first two segments joined by
a dot) and the decoded signature segment. -/
structure ParsedToken where
  Method : SigningMethod
  Claims : TokenClaims
  SigningInput : String
  Signature : List Nat
  deriving DecidableEq

/-- Go `jwt.Token`, as far as the program looks at it. -/
structure Token where
  Method : SigningMethod
  Claims : TokenClaims
  Signature : List Nat
  Valid : Bool
  deriving DecidableEq

/-- The functions of the libraries that the program relies on and that are
left uninterpreted.

* `hmac h key msg`: `crypto/hmac` with hash `h`; `hmacSum` below spells out
  how `crypto/hmac` computes it from the hash function, and `Lib.HMACOver`
  says that the field is that construction.
* `signOther alg text key`, `verifyOther alg text sig key`: `Sign` and `Verify`
  of a registered method that is not an HMAC.
* `signingString m c`: `(*jwt.Token).SigningString` for a token with method
  `m` and claims `c`, the base64url of the JSON header, a dot, the base64url of
  the JSON claims.
* `encodeSegment`: `(*jwt.Token).EncodeSegment`.
* `parseUnverified`: `(*jwt.Parser).ParseUnverified` followed by the decoding
  of the signature segment; `none` when either fails, that is for a string
  that is not three base64url segments, whose header or claims are not JSON
  of the expected shape, or whose `alg` names no registered method.
* `base64URL`: `base64.URLEncoding.EncodeToString`.
* `bcryptCompare hash password`: whether `bcrypt.CompareHashAndPassword`
  returns `nil`. -/
structure Lib where
  hmac : HashAlg → String → String → List Nat
  signOther : String → String → String → List Nat
  verifyOther : String → String → List Nat → String → Bool
  signingString : SigningMethod → TokenClaims → String
  encodeSegment : List Nat → String
  parseUnverified : String → Option ParsedToken
  base64URL : List Nat → String
  bcryptCompare : String → String → Bool

/-- The sentinel errors of the jwt library that a parse can report. -/
inductive JWTError where
  | ErrTokenMalformed
  | ErrTokenUnverifiable
  | ErrTokenSignatureInvalid
  | ErrTokenInvalidClaims
  | ErrTokenExpired
  | ErrTokenNotValidYet
  deriving DecidableEq

/-- Go `errors.Is` on an error of the jwt library, which is given by the
sentinels it wraps. -/
def errorsIs (err : List JWTError) (target : JWTError) : Bool :=
  err.contains target

/-- Go `jwt.NewNumericDate`: the instant truncated to `jwt.TimePrecision`,
one second. -/
def NewNumericDate (t : Time) : Time :=
  t - t % Second

/-- Go `fmt.Sprintf("%d", n)`. -/
def fmtDecimal (n : Int) : String :=
  toString n

/-- Go `SigningMethod.Sign` for the methods of the library. -/
def SigningMethod.Sign (lib : Lib) (m : SigningMethod) (signingString key : String) :
    List Nat :=
  match m with
  | SigningMethod.HMAC h => lib.hmac h key signingString
  | SigningMethod.other alg => lib.signOther alg signingString key

/-- Go `SigningMethod.Verify`: an HMAC method recomputes the MAC of the text
under the key and compares it with the signature. -/
def SigningMethod.Verify (lib : Lib) (m : SigningMethod) (signingString : String)
    (sig : List Nat) (key : String) : Bool :=
  match m with
  | SigningMethod.HMAC h => lib.hmac h key signingString == sig
  | SigningMethod.other alg => lib.verifyOther alg signingString sig key

/-- Go `(*jwt.Token).SignedString`; `fault` is the error of the signing
primitive, if it reports one. -/
def SignedString (lib : Lib) (m : SigningMethod) (claims : TokenClaims) (key : String)
    (fault : Option Error) : String × Option Error :=
  match fault with
  | some e => ("", some e)
  | none =>
    let sstr := lib.signingString m claims
    (sstr ++ "." ++ lib.encodeSegment (m.Sign lib sstr key), none)

/-- Go `(*jwt.Validator).Validate` with the default options (no leeway, `exp`
and `nbf` optional, `iat` not checked): the list of the checks that failed. -/
def Validate (claims : TokenClaims) (now : Time) : List JWTError :=
  (match claims.ExpiresAt with
    | some exp => if now < exp then [] else [JWTError.ErrTokenExpired]
    | none => []) ++
  (match claims.NotBefore with
    | some nbf => if now < nbf then [JWTError.ErrTokenNotValidYet] else []
    | none => [])

/-- Go `jwt.ParseWithClaims` with the default parser.  `keyFunc` receives the
method of the parsed token and returns the key or fails; `now` is the clock
reading of the claims validation.  The result is the token and the error,
`none` for `nil`. -/
def ParseWithClaims (lib : Lib) (tokenString : String)
    (keyFunc : SigningMethod → Except String String) (now : Time) :
    Option Token × Option (List JWTError) :=
  match lib.parseUnverified tokenString with
  | none => (none, some [JWTError.ErrTokenMalformed])
  | some p =>
    let token : Token :=
      { Method := p.Method, Claims := p.Claims, Signature := p.Signature, Valid := false }
    match keyFunc p.Method with
    | Except.error _ => (some token, some [JWTError.ErrTokenUnverifiable])
    | Except.ok key =>
      if !(p.Method.Verify lib p.SigningInput p.Signature key) then
        (some token, some [JWTError.ErrTokenSignatureInvalid])
      else
        match Validate p.Claims now with
        | [] => (some { token with Valid := true }, none)
        | e :: es => (some token, some (JWTError.ErrTokenInvalidClaims :: e :: es))

/-! ## auth/auth.go -/

/-- Go `auth.Service`; the repository it holds is the table passed to each
operation. -/
structure Service where
  jwtSecret : String
  tokenExpiry : Duration
  deriving DecidableEq

/-- Go `auth.NewAuthService`.  `envSecret` is `os.Getenv("JWT_SECRET")` and
`parsedExpiry` the result of `time.ParseDuration(os.Getenv("JWT_EXPIRY"))`,
`none` when it returns an error. -/
def NewAuthService (envSecret : String) (parsedExpiry : Option Duration) : Service :=
  { jwtSecret := if envSecret == "" then "default_secret_key_change_in_production" else envSecret
    tokenExpiry := match parsedExpiry with
      | some d => d
      | none => 15 * Minute }

/-- Go `(*Service).GetTokenExpiry`. -/
def Service.GetTokenExpiry (s : Service) : Duration :=
  s.tokenExpiry

/-- Go `(*Service).GetRefreshTokenByToken`. -/
def Service.GetRefreshTokenByToken (db : Table) (token : String) (fault : Option Error) :
    Option RefreshToken × Option Error :=
  RefreshTokenRepository.GetByToken db token fault

/-- The claims that `GenerateJWT` builds for a user: `now1` is the clock
reading for `ExpiresAt`, `now2` the one for `IssuedAt`. -/
def Service.claimsFor (s : Service) (userID : Int) (email : String) (now1 now2 : Time) :
    TokenClaims :=
  { UserID := userID
    Email := email
    Issuer := ""
    Subject := fmtDecimal userID
    Audience := []
    ExpiresAt := some (NewNumericDate (now1 + s.tokenExpiry))
    NotBefore := none
    IssuedAt := some (NewNumericDate now2)
    ID := "" }

/-- Go `(*Service).GenerateJWT`. -/
def Service.GenerateJWT (lib : Lib) (s : Service) (user : User) (now1 now2 : Time)
    (signFault : Option Error) : String × Option Error :=
  let claims := s.claimsFor user.ID user.Email now1 now2
  match SignedString lib SigningMethodHS256 claims s.jwtSecret signFault with
  | (_, some err) => ("", some err)
  | (signedToken, none) => (signedToken, none)

/-- The key function that `ValidateJWT` hands to the parser: it accepts the
methods of type `*jwt.SigningMethodHMAC` and returns the secret. -/
def Service.keyFunc (s : Service) (m : SigningMethod) : Except String String :=
  match m with
  | SigningMethod.HMAC _ => Except.ok s.jwtSecret
  | SigningMethod.other alg => Except.error ("método de assinatura inesperado: " ++ alg)

/-- Go `(*Service).ValidateJWT`; `now` is the clock reading of the library's
claims validation. -/
def Service.ValidateJWT (lib : Lib) (s : Service) (tokenString : String) (now : Time) :
    Option TokenClaims × Option Error :=
  match ParseWithClaims lib tokenString s.keyFunc now with
  | (_, some err) =>
    if errorsIs err JWTError.ErrTokenExpired then
      (none, some Error.ErrExpiredToken)
    else
      (none, some Error.ErrInvalidToken)
  | (none, none) => (none, some Error.ErrInvalidToken)
  | (some token, none) =>
    if !token.Valid then
      (none, some Error.ErrInvalidToken)
    else
      (some token.Claims, none)

/-- What `GenerateRefreshToken` reads from outside: the outcome of
`rand.Read` (the 32 bytes, or an error), the parsed value of
`REFRESH_TOKEN_EXPIRY` (`none` when `time.ParseDuration` fails), the two
clock readings of `NewRefreshToken`, the id drawn for the row and the fault of
the insert. -/
structure GenEnv where
  randBytes : List Nat
  randErr : Option Error
  refreshExpiry : Option Duration
  now1 : Time
  now2 : Time
  newID : Int
  createFault : Option Error

/-- Go `(*Service).GenerateRefreshToken`. -/
def Service.GenerateRefreshToken (lib : Lib) (db : Table) (userID : Int) (env : GenEnv) :
    Option RefreshToken × Option Error × Table :=
  match env.randErr with
  | some err => (none, some err, db)
  | none =>
    let tokenString := lib.base64URL env.randBytes
    let refreshExpiry : Duration :=
      match env.refreshExpiry with
      | some d => d
      | none => 7 * 24 * Hour
    let refreshToken := NewRefreshToken userID tokenString refreshExpiry env.now1 env.now2
    match RefreshTokenRepository.Create db refreshToken env.newID env.createFault with
    | (some err, _, db1) => (none, some err, db1)
    | (none, stored, db1) => (some stored, none, db1)

/-- What `RefreshAccessToken` reads from outside: the fault of the lookup, the
clock reading of the expiry check, the two readings and the signing fault of
`GenerateJWT`, the environment of `GenerateRefreshToken`, and the fault of the
final `Invalidate`. -/
structure RefreshEnv where
  getFault : Option Error
  nowCheck : Time
  jwtNow1 : Time
  jwtNow2 : Time
  signFault : Option Error
  gen : GenEnv
  invalidateFault : Option Error

/-- Go `(*Service).RefreshAccessToken`: the access token, the refresh token,
the error, and the table afterwards.  The lookup never returns a nil row with
a nil error; the branch for it is there for totality. -/
def Service.RefreshAccessToken (lib : Lib) (s : Service) (db : Table)
    (refreshTokenStr userEmail : String) (env : RefreshEnv) :
    String × Option RefreshToken × Option Error × Table :=
  match RefreshTokenRepository.GetByToken db refreshTokenStr env.getFault with
  | (_, some _) => ("", none, some Error.ErrInvalidToken, db)
  | (none, none) => ("", none, some Error.ErrInvalidToken, db)
  | (some refreshToken, none) =>
    if !refreshToken.IsValid || refreshToken.IsExpired env.nowCheck then
      ("", none, some Error.ErrInvalidToken, db)
    else
      let user : User :=
        { ID := refreshToken.UserID, Name := "", Email := userEmail, Password := "",
          CreatedAt := 0, UpdatedAt := 0 }
      match s.GenerateJWT lib user env.jwtNow1 env.jwtNow2 env.signFault with
      | (_, some err) => ("", none, some err, db)
      | (newJWT, none) =>
        match Service.GenerateRefreshToken lib db user.ID env.gen with
        | (_, some err, db1) => ("", none, some err, db1)
        | (newRefreshToken, none, db1) =>
          let (_, db2) := RefreshTokenRepository.Invalidate db1 refreshTokenStr env.invalidateFault
          (newJWT, newRefreshToken, none, db2)

/-- Go `(*Service).InvalidateAllTokensForUser`. -/
def Service.InvalidateAllTokensForUser (db : Table) (userID : Int) (fault : Option Error) :
    Option Error × Table :=
  RefreshTokenRepository.InvalidateAllForUser db userID fault

/-! ## repository/user_repository.go -/

/-- The rows of table `users`, oldest first. -/
abbrev Users := List User

/-- Go `(*UserRepository).Create`: `INSERT INTO users ... RETURNING id`, refused
when the email is taken (`email VARCHAR(100) NOT NULL UNIQUE`). -/
def UserRepository.Create (users : Users) (user : User) (newID : Int)
    (fault : Option Error) : Option Error × User × Users :=
  match fault with
  | some e => (some e, user, users)
  | none =>
    if users.any (fun u => u.Email == user.Email) then
      (some uniqueViolation, user, users)
    else
      (none, { user with ID := newID }, users ++ [{ user with ID := newID }])

/-- Go `(*UserRepository).GetByID`. -/
def UserRepository.GetByID (users : Users) (id : Int) (fault : Option Error) :
    Option User × Option Error :=
  match fault with
  | some e => (none, some e)
  | none =>
    match users.find? (fun u => u.ID == id) with
    | none => (none, some Error.ErrNoRows)
    | some u => (some u, none)

/-- Go `(*UserRepository).GetByEmail`. -/
def UserRepository.GetByEmail (users : Users) (email : String) (fault : Option Error) :
    Option User × Option Error :=
  match fault with
  | some e => (none, some e)
  | none =>
    match users.find? (fun u => u.Email == email) with
    | none => (none, some Error.ErrNoRows)
    | some u => (some u, none)

/-- Go `(*User).ComparePassword`. -/
def User.ComparePassword (lib : Lib) (u : User) (password : String) : Bool :=
  lib.bcryptCompare u.Password password

/-- Go `entity.NewUser`.  `now1` and `now2` are the clock readings for
`CreatedAt` and `UpdatedAt`; `hash` is `bcrypt.GenerateFromPassword` as it
answers in `HashPassword` (it draws a salt, and can fail). -/
def NewUser (name email password : String) (now1 now2 : Time)
    (hash : String → String × Option Error) : Option User × Option Error :=
  match hash password with
  | (_, some e) => (none, some e)
  | (hashed, none) =>
    (some { ID := 0, Name := name, Email := email, Password := hashed,
            CreatedAt := now1, UpdatedAt := now2 }, none)

/-! ## handlers/auth_handler.go: Register and Login -/

/-- Go `handlers.RegisterRequest`. -/
structure RegisterRequest where
  Name : String
  Email : String
  Password : String
  deriving DecidableEq

/-- Go `handlers.LoginRequest`. -/
structure LoginRequest where
  Email : String
  Password : String
  deriving DecidableEq

/-- Go `handlers.AuthResponse`. -/
structure AuthResponse where
  AccessToken : String
  RefreshToken : String
  ExpiresIn : Int
  TokenType : String
  deriving DecidableEq

/-- What a handler writes after the status line: the text of `http.Error`, the
JSON encoding of an `AuthResponse`, or nothing. -/
inductive Body where
  | text (msg : String)
  | json (resp : AuthResponse)
  | empty
  deriving DecidableEq

/-- The status code and the body that a handler writes. -/
structure Response where
  status : Nat
  body : Body
  deriving DecidableEq

/-- Go `http.Error`. -/
def httpError (msg : String) (code : Nat) : Response :=
  { status := code, body := Body.text msg }

/-- Go `int64(d.Seconds())`: the `float64` of `Duration.Seconds`, converted to
an integer by dropping its fraction. -/
def wholeSeconds (d : Duration) : Int :=
  let f := secondsOf d.natAbs
  if d < 0 then -((f.1 / f.2 : Nat) : Int) else ((f.1 / f.2 : Nat) : Int)

/-- The `AuthResponse` that `Register`, `Login` and `RefreshToken` build. -/
def Service.authResponse (s : Service) (accessToken : String) (refreshToken : RefreshToken) :
    AuthResponse :=
  { AccessToken := accessToken
    RefreshToken := refreshToken.Token
    ExpiresIn := wholeSeconds s.GetTokenExpiry
    TokenType := "Bearer" }

/-- What `Login` reads from outside: the decoded body (`none` when decoding
fails), the fault of the user lookup, the clock readings and signing fault of
`GenerateJWT`, and the environment of `GenerateRefreshToken`. -/
structure LoginEnv where
  decoded : Option LoginRequest
  lookupFault : Option Error
  jwtNow1 : Time
  jwtNow2 : Time
  signFault : Option Error
  gen : GenEnv

/-- Go `(*AuthHandler).Login`: the response and the `refresh_tokens` table
afterwards.  The repository and the service never return a nil value with a
nil error; the branches for it (status 500) are there for totality. -/
def AuthHandler.Login (lib : Lib) (s : Service) (users : Users) (db : Table)
    (env : LoginEnv) : Response × Table :=
  match env.decoded with
  | none => (httpError "Formato de requisição inválido" 400, db)
  | some req =>
    if req.Email == "" || req.Password == "" then
      (httpError "Email e senha são obrigatórios" 400, db)
    else
      match UserRepository.GetByEmail users req.Email env.lookupFault with
      | (_, some err) =>
        if err == Error.ErrNoRows then
          (httpError "Credenciais inválidas" 401, db)
        else
          (httpError "Erro ao processar solicitação" 500, db)
      | (none, none) => (httpError "Erro ao processar solicitação" 500, db)
      | (some user, none) =>
        if !user.ComparePassword lib req.Password then
          (httpError "Credenciais inválidas" 401, db)
        else
          match s.GenerateJWT lib user env.jwtNow1 env.jwtNow2 env.signFault with
          | (_, some _) => (httpError "Erro ao gerar token de acesso" 500, db)
          | (accessToken, none) =>
            match Service.GenerateRefreshToken lib db user.ID env.gen with
            | (_, some _, db1) => (httpError "Erro ao gerar token de atualização" 500, db1)
            | (none, none, db1) => (httpError "Internal Server Error" 500, db1)
            | (some refreshToken, none, db1) =>
              ({ status := 200, body := Body.json (s.authResponse accessToken refreshToken) }, db1)

/-- What `Register` reads from outside: the decoded body, the fault of the
email lookup, the clock readings and the password hashing of `NewUser`, the id and
fault of the user insert, the clock readings and signing fault of
`GenerateJWT`, and the environment of `GenerateRefreshToken`. -/
structure RegisterEnv where
  decoded : Option RegisterRequest
  lookupFault : Option Error
  userNow1 : Time
  userNow2 : Time
  hash : String → String × Option Error
  newUserID : Int
  createUserFault : Option Error
  jwtNow1 : Time
  jwtNow2 : Time
  signFault : Option Error
  gen : GenEnv

/-- Go `(*AuthHandler).Register`: the response and both tables afterwards.  As
in `Login`, the branches for a nil value with a nil error are there for
totality. -/
def AuthHandler.Register (lib : Lib) (s : Service) (users : Users) (db : Table)
    (env : RegisterEnv) : Response × Users × Table :=
  match env.decoded with
  | none => (httpError "Formato de requisição inválido" 400, users, db)
  | some req =>
    if req.Name == "" || req.Email == "" || req.Password == "" then
      (httpError "Todos os campos são obrigatórios" 400, users, db)
    else
      match UserRepository.GetByEmail users req.Email env.lookupFault with
      | (_, none) => (httpError "Erro ao processar solicitação" 409, users, db)
      | (_, some err) =>
        if err != Error.ErrNoRows then
          (httpError "Erro ao processar solicitação" 500, users, db)
        else
          match NewUser req.Name req.Email req.Password env.userNow1 env.userNow2 env.hash with
          | (_, some _) => (httpError "Erro ao processar solicitação" 500, users, db)
          | (none, none) => (httpError "Internal Server Error" 500, users, db)
          | (some user0, none) =>
            match UserRepository.Create users user0 env.newUserID env.createUserFault with
            | (some _, _, users1) => (httpError "Erro ao processar solicitação" 500, users1, db)
            | (none, user, users1) =>
              match s.GenerateJWT lib user env.jwtNow1 env.jwtNow2 env.signFault with
              | (_, some _) => (httpError "Erro ao gerar token de acesso" 500, users1, db)
              | (accessToken, none) =>
                match Service.GenerateRefreshToken lib db user.ID env.gen with
                | (_, some _, db1) =>
                  (httpError "Erro ao gerar token de atualização" 500, users1, db1)
                | (none, none, db1) => (httpError "Internal Server Error" 500, users1, db1)
                | (some refreshToken, none, db1) =>
                  ({ status := 201, body := Body.json (s.authResponse accessToken refreshToken) },
                    users1, db1)

/-! ## handlers/auth_handler.go: RefreshToken and Logout; middleware/auth_middleware.go -/

/-- Go `handlers.RefreshTokenRequest`. -/
structure RefreshTokenRequest where
  RefreshToken : String
  deriving DecidableEq

/-- What the handlers below read of an `*http.Request`: the value of the
`Authorization` header (empty when absent), what decoding the body as a
`RefreshTokenRequest` yields (`none` when decoding fails), and the user id and
email that `auth.WithUserID` and `auth.WithEmail` put into its context. -/
structure Request where
  Authorization : String
  refreshBody : Option RefreshTokenRequest
  ctxUserID : Option Int
  ctxEmail : Option String
  deriving DecidableEq

/-- The token that `RefreshToken` takes from the header: the header without
its first seven bytes when it is longer than seven bytes and starts with
`Bearer `, the whole header otherwise. -/
def bearerToken (header : String) : String :=
  match header.data with
  | 'B' :: 'e' :: 'a' :: 'r' :: 'e' :: 'r' :: ' ' :: c :: rest => String.mk (c :: rest)
  | _ => header

/-- What the `RefreshToken` handler reads from outside: the clock reading of
`ValidateJWT`, the faults of the two lookups that find the email when the
header gave none, and the environment of `RefreshAccessToken`. -/
structure RefreshHandlerEnv where
  nowValidate : Time
  hintGetFault : Option Error
  hintUserFault : Option Error
  refresh : RefreshEnv

/-- The email that the `RefreshToken` handler passes to `RefreshAccessToken`
(`userEmail`, lines 216 to 239): the email claim of the header token when that
token validates, and, when this left it empty, the email of the user who owns
the refresh token of the body, when both lookups succeed. -/
def AuthHandler.emailHint (lib : Lib) (s : Service) (users : Users) (db : Table)
    (r : Request) (refreshToken : String) (env : RefreshHandlerEnv) : String :=
  let tokenString := bearerToken r.Authorization
  let userEmail : String :=
    if tokenString != "" then
      match (s.ValidateJWT lib tokenString env.nowValidate).1 with
      | some claims => claims.Email
      | none => ""
    else ""
  if userEmail == "" then
    match Service.GetRefreshTokenByToken db refreshToken env.hintGetFault with
    | (some rt, none) =>
      match UserRepository.GetByID users rt.UserID env.hintUserFault with
      | (some user, none) => user.Email
      | _ => userEmail
    | _ => userEmail
  else userEmail

/-- Go `(*AuthHandler).RefreshToken`: the response and the `refresh_tokens`
table afterwards.  The service never returns a nil refresh token with a nil
error; the branch for it (status 500) is there for totality. -/
def AuthHandler.RefreshToken (lib : Lib) (s : Service) (users : Users) (db : Table)
    (r : Request) (env : RefreshHandlerEnv) : Response × Table :=
  match r.refreshBody with
  | none => (httpError "Formato de requisição inválido" 400, db)
  | some req =>
    if req.RefreshToken == "" then
      (httpError "Token de atualização é obrigatório" 400, db)
    else
      let userEmail := AuthHandler.emailHint lib s users db r req.RefreshToken env
      match s.RefreshAccessToken lib db req.RefreshToken userEmail env.refresh with
      | (_, _, some err, db1) =>
        if err == Error.ErrInvalidToken || err == Error.ErrExpiredToken then
          (httpError "Autenticação inválida" 401, db1)
        else
          (httpError "Erro ao processar solicitação" 500, db1)
      | (_, none, none, db1) => (httpError "Internal Server Error" 500, db1)
      | (newAccessToken, some newRefreshToken, none, db1) =>
        ({ status := 200, body := Body.json (s.authResponse newAccessToken newRefreshToken) },
          db1)

/-- What `Logout` reads from outside: the clock reading of its `ValidateJWT`,
the fault of the lookup of the body refresh token, and the fault of
`InvalidateAllForUser`. -/
structure LogoutEnv where
  nowValidate : Time
  getFault : Option Error
  invalidateFault : Option Error

/-- The token that `Logout` takes from the header: the rest of a header that
is longer than seven bytes and starts with `Bearer `. -/
def AuthHandler.logoutToken (r : Request) : Option String :=
  match r.Authorization.data with
  | 'B' :: 'e' :: 'a' :: 'r' :: 'e' :: 'r' :: ' ' :: c :: rest => some (String.mk (c :: rest))
  | _ => none

/-- Go `(*AuthHandler).Logout`: the response and the `refresh_tokens` table
afterwards. -/
def AuthHandler.Logout (lib : Lib) (s : Service) (env : LogoutEnv) (r : Request)
    (db : Table) : Response × Table :=
  match AuthHandler.logoutToken r with
  | none => (httpError "Autenticação necessária" 400, db)
  | some tokenString =>
    match s.ValidateJWT lib tokenString env.nowValidate with
    | (_, some err) =>
      if err == Error.ErrExpiredToken then
        match r.refreshBody with
        | none => ({ status := 204, body := Body.empty }, db)
        | some req =>
          if req.RefreshToken != "" then
            match Service.GetRefreshTokenByToken db req.RefreshToken env.getFault with
            | (some refreshToken, none) =>
              ({ status := 204, body := Body.empty },
                (Service.InvalidateAllTokensForUser db refreshToken.UserID
                  env.invalidateFault).2)
            | _ => ({ status := 204, body := Body.empty }, db)
          else ({ status := 204, body := Body.empty }, db)
      else
        (httpError "Autenticação inválida" 401, db)
    | (none, none) => (httpError "Internal Server Error" 500, db)
    | (some claims, none) =>
      ({ status := 204, body := Body.empty },
        (Service.InvalidateAllTokensForUser db claims.UserID env.invalidateFault).2)

/-- Go `strings.Split(s, " ")` on the characters of `s`. -/
def splitOnSpace : List Char → List (List Char)
  | [] => [[]]
  | c :: cs =>
    if c = ' ' then [] :: splitOnSpace cs
    else
      match splitOnSpace cs with
      | [] => [[c]]
      | part :: parts => (c :: part) :: parts

/-- The token that `RequireAuth` takes from the header: the second of exactly
two parts separated by one space, the first being `Bearer`. -/
def AuthMiddleware.token (r : Request) : Option String :=
  match splitOnSpace r.Authorization.data with
  | [first, second] => if String.mk first == "Bearer" then some (String.mk second) else none
  | _ => none

/-- Go `(*AuthMiddleware).RequireAuth` applied to the handler `next`; `now` is
the clock reading of its `ValidateJWT`. -/
def AuthMiddleware.RequireAuth (lib : Lib) (s : Service)
    (next : Request → Table → Response × Table) (now : Time) (r : Request) (db : Table) :
    Response × Table :=
  if r.Authorization == "" then
    (httpError "Autenticação necessária" 401, db)
  else
    match AuthMiddleware.token r with
    | none => (httpError "Autenticação inválida" 401, db)
    | some tokenString =>
      match s.ValidateJWT lib tokenString now with
      | (_, some err) =>
        if err == Error.ErrExpiredToken then
          (httpError "Autenticação expirada" 401, db)
        else
          (httpError "Autenticação inválida" 401, db)
      | (none, none) => (httpError "Internal Server Error" 500, db)
      | (some claims, none) =>
        next { r with ctxUserID := some claims.UserID, ctxEmail := some claims.Email } db

/-- The route `POST /api/auth/logout` as `main` wires it: `Logout` behind
`RequireAuth`.  `nowAuth` is the clock reading of the middleware, `env` the
environment of `Logout`. -/
def logoutRoute (lib : Lib) (s : Service) (nowAuth : Time) (env : LogoutEnv) (r : Request)
    (db : Table) : Response × Table :=
  AuthMiddleware.RequireAuth lib s (AuthHandler.Logout lib s env) nowAuth r db

/-! ## Notions used in the statements -/

/-- The lifetime that `GenerateRefreshToken` gives a refresh token: the parsed
`REFRESH_TOKEN_EXPIRY`, or 7 days. -/
def GenEnv.ttl (env : GenEnv) : Duration :=
  match env.refreshExpiry with
  | some d => d
  | none => 7 * 24 * Hour

/-- The entity that `GenerateRefreshToken` builds for a user before it is
persisted. -/
def GenEnv.entity (lib : Lib) (userID : Int) (env : GenEnv) : RefreshToken :=
  NewRefreshToken userID (lib.base64URL env.randBytes) env.ttl env.now1 env.now2

/-- The row that `GenerateRefreshToken` stores for a user: the entity with the
id drawn by the insert. -/
def GenEnv.row (lib : Lib) (userID : Int) (env : GenEnv) : RefreshToken :=
  { env.entity lib userID with ID := env.newID }

/-- The insert attempted by `GenerateRefreshToken` reports an error. -/
def GenEnv.CreateFails (lib : Lib) (db : Table) (userID : Int) (env : GenEnv) : Prop :=
  (RefreshTokenRepository.Create db (env.entity lib userID) env.newID env.createFault).1 ≠ none

/-- The compact token that `GenerateJWT` returns for the given claims when
signing succeeds. -/
def Service.signed (lib : Lib) (s : Service) (claims : TokenClaims) : String :=
  (SignedString lib SigningMethodHS256 claims s.jwtSecret none).1

/-- The parser reads a compact token produced by `SignedString` back as the
method, claims, signed text and signature that went into it. -/
def Lib.ReadsBack (lib : Lib) (m : SigningMethod) (claims : TokenClaims) (key : String) :
    Prop :=
  lib.parseUnverified (SignedString lib m claims key none).1 =
    some { Method := m
           Claims := claims
           SigningInput := lib.signingString m claims
           Signature := m.Sign lib (lib.signingString m claims) key }

/-- The decimal rendering of an integer: a minus sign if it is negative, then
the base 10 digits of its absolute value from the most significant one, and
the single digit `0` for zero. -/
def decimalRendering (n : Int) : String :=
  String.mk ((if n < 0 then ['-'] else []) ++
    (if n = 0 then ['0'] else (Nat.digits 10 n.natAbs).reverse.map Nat.digitChar))

/-- One write of the token repository: the table after a `Create`, an
`Invalidate` or an `InvalidateAllForUser`, with any arguments and any
outcome. -/
inductive StoreStep : Table → Table → Prop where
  | create (db : Table) (token : RefreshToken) (newID : Int) (fault : Option Error) :
      StoreStep db (RefreshTokenRepository.Create db token newID fault).2.2
  | invalidate (db : Table) (token : String) (fault : Option Error) :
      StoreStep db (RefreshTokenRepository.Invalidate db token fault).2
  | invalidateAll (db : Table) (userID : Int) (fault : Option Error) :
      StoreStep db (RefreshTokenRepository.InvalidateAllForUser db userID fault).2

/-- The table `db2` is `db1` after any number of writes of the token
repository. -/
def Later (db1 db2 : Table) : Prop :=
  Relation.ReflTransGen StoreStep db1 db2

/-- The token value `T` is stored and every row that carries it is invalid. -/
def Spent (T : String) (db : Table) : Prop :=
  (∃ r ∈ db, r.Token = T) ∧ ∀ r ∈ db, r.Token = T → r.IsValid = false

/-! ## Sequences of operations -/

/-- An operation on the token store: one of the three writes of the
repository, or one of the three operations of the service that write, with its
arguments and what it reads from outside. -/
inductive Op where
  | Create (token : RefreshToken) (newID : Int) (fault : Option Error)
  | Invalidate (token : String) (fault : Option Error)
  | InvalidateAllForUser (userID : Int) (fault : Option Error)
  | GenerateRefreshToken (userID : Int) (env : GenEnv)
  | RefreshAccessToken (refreshTokenStr userEmail : String) (env : RefreshEnv)
  | InvalidateAllTokensForUser (userID : Int) (fault : Option Error)

/-- The table after an operation. -/
def Op.run (lib : Lib) (s : Service) (db : Table) : Op → Table
  | Op.Create token newID fault => (RefreshTokenRepository.Create db token newID fault).2.2
  | Op.Invalidate token fault => (RefreshTokenRepository.Invalidate db token fault).2
  | Op.InvalidateAllForUser userID fault =>
    (RefreshTokenRepository.InvalidateAllForUser db userID fault).2
  | Op.GenerateRefreshToken userID env => (Service.GenerateRefreshToken lib db userID env).2.2
  | Op.RefreshAccessToken refreshTokenStr userEmail env =>
    (s.RefreshAccessToken lib db refreshTokenStr userEmail env).2.2.2
  | Op.InvalidateAllTokensForUser userID fault =>
    (Service.InvalidateAllTokensForUser db userID fault).2

/-- The table after a sequence of operations, run in order. -/
def runOps (lib : Lib) (s : Service) (db : Table) (ops : List Op) : Table :=
  ops.foldl (Op.run lib s) db

/-- The row `r2` is the row `r1` at a later time: every column but `is_valid`
is the same, and `is_valid` did not go from false to true. -/
def RowKept (r1 r2 : RefreshToken) : Prop :=
  r2.ID = r1.ID ∧ r2.UserID = r1.UserID ∧ r2.Token = r1.Token ∧
  r2.ExpiresAt = r1.ExpiresAt ∧ r2.CreatedAt = r1.CreatedAt ∧
  (r1.IsValid = false → r2.IsValid = false)

/-- The table `db2` keeps every row of `db1` in its place: where `db1` has a
row, `db2` has that row at a later time. -/
def TableKept (db1 db2 : Table) : Prop :=
  ∀ (i : Nat) (r1 : RefreshToken), db1[i]? = some r1 → ∃ r2, db2[i]? = some r2 ∧ RowKept r1 r2

/-! ## Two calls of RefreshAccessToken in parallel -/

/-- Where a call of `RefreshAccessToken` stands between its store calls:
before the lookup; after the lookup and the validity check, holding the row;
after `GenerateJWT` and `GenerateRefreshToken`, holding the new pair; or
returned, with the values it returns. -/
inductive Progress where
  | start
  | found (refreshToken : RefreshToken)
  | created (newJWT : String) (newRefreshToken : Option RefreshToken)
  | returned (access : String) (refresh : Option RefreshToken) (err : Option Error)
  deriving DecidableEq

/-- A call of `RefreshAccessToken` in progress: its arguments, what it reads
from outside, and where it stands. -/
structure Call where
  refreshTokenStr : String
  userEmail : String
  env : RefreshEnv
  progress : Progress

/-- A call that has not begun. -/
def Call.new (refreshTokenStr userEmail : String) (env : RefreshEnv) : Call :=
  { refreshTokenStr := refreshTokenStr, userEmail := userEmail, env := env,
    progress := Progress.start }

/-- The part of `RefreshAccessToken` up to and including its next store call,
run on the table as it is at that moment: the lookup with the validity check
(lines 165 to 179), then `GenerateJWT` and `GenerateRefreshToken` with its
insert (lines 182 to 197), then the final `Invalidate` and the return (lines
200 to 206).  A call that has returned does nothing. -/
def Call.step (lib : Lib) (s : Service) (c : Call) (db : Table) : Call × Table :=
  match c.progress with
  | Progress.start =>
    match RefreshTokenRepository.GetByToken db c.refreshTokenStr c.env.getFault with
    | (_, some _) =>
      ({ c with progress := Progress.returned "" none (some Error.ErrInvalidToken) }, db)
    | (none, none) =>
      ({ c with progress := Progress.returned "" none (some Error.ErrInvalidToken) }, db)
    | (some refreshToken, none) =>
      if !refreshToken.IsValid || refreshToken.IsExpired c.env.nowCheck then
        ({ c with progress := Progress.returned "" none (some Error.ErrInvalidToken) }, db)
      else
        ({ c with progress := Progress.found refreshToken }, db)
  | Progress.found refreshToken =>
    let user : User :=
      { ID := refreshToken.UserID, Name := "", Email := c.userEmail, Password := "",
        CreatedAt := 0, UpdatedAt := 0 }
    match s.GenerateJWT lib user c.env.jwtNow1 c.env.jwtNow2 c.env.signFault with
    | (_, some err) => ({ c with progress := Progress.returned "" none (some err) }, db)
    | (newJWT, none) =>
      match Service.GenerateRefreshToken lib db user.ID c.env.gen with
      | (_, some err, db1) => ({ c with progress := Progress.returned "" none (some err) }, db1)
      | (newRefreshToken, none, db1) =>
        ({ c with progress := Progress.created newJWT newRefreshToken }, db1)
  | Progress.created newJWT newRefreshToken =>
    let (_, db2) :=
      RefreshTokenRepository.Invalidate db c.refreshTokenStr c.env.invalidateFault
    ({ c with progress := Progress.returned newJWT newRefreshToken none }, db2)
  | Progress.returned _ _ _ => (c, db)

/-- Two calls and the table, run under a schedule: at each entry the first
call (`true`) or the second (`false`) takes its next step. -/
def interleave (lib : Lib) (s : Service) : List Bool → Call × Call × Table → Call × Call × Table
  | [], state => state
  | true :: rest, (a, b, db) =>
    interleave lib s rest ((a.step lib s db).1, b, (a.step lib s db).2)
  | false :: rest, (a, b, db) =>
    interleave lib s rest (a, (b.step lib s db).1, (b.step lib s db).2)

/-- The call has returned without error. -/
def Call.Succeeded (c : Call) : Prop :=
  ∃ access refresh, c.progress = Progress.returned access refresh none

/-! ## A concrete instance

A small instance of the library interface together with a service, a user and
a table, on which the definitions above can be evaluated. -/

/-- The name of a signing method, its `alg` header value. -/
def SigningMethod.Alg (m : SigningMethod) : String :=
  match m with
  | SigningMethod.HMAC HashAlg.SHA256 => "HS256"
  | SigningMethod.HMAC HashAlg.SHA384 => "HS384"
  | SigningMethod.HMAC HashAlg.SHA512 => "HS512"
  | SigningMethod.other alg => alg

/-- A stand-in for the signed text: the method, the subject and the email. -/
def demoSigningString (m : SigningMethod) (c : TokenClaims) : String :=
  m.Alg ++ "." ++ c.Subject ++ "," ++ c.Email

/-- A stand-in for the MAC: the characters of the key followed by those of the
text. -/
def demoHmac (_h : HashAlg) (key msg : String) : List Nat :=
  (key ++ msg).toList.map Char.toNat

/-- A stand-in for the segment encoding. -/
def demoEncodeSegment (sig : List Nat) : String :=
  String.mk (sig.map Char.ofNat)

/-- The service of the examples: secret `k1`, access tokens of 15 minutes. -/
def demoService : Service :=
  { jwtSecret := "k1", tokenExpiry := 15 * Minute }

/-- The claims of the example access token: user 42, `a@x.com`, signed at
instant 0. -/
def demoClaims : TokenClaims :=
  demoService.claimsFor 42 "a@x.com" 0 0

/-- The example access token. -/
def demoAccessToken : String :=
  demoSigningString SigningMethodHS256 demoClaims ++ "." ++
    demoEncodeSegment (demoHmac HashAlg.SHA256 "k1" (demoSigningString SigningMethodHS256 demoClaims))

/-- The library instance of the examples.  Its parser knows the example
access token and rejects every other string. -/
def demoLib : Lib :=
  { hmac := demoHmac
    signOther := fun _ _ _ => []
    verifyOther := fun _ _ _ _ => false
    signingString := demoSigningString
    encodeSegment := demoEncodeSegment
    parseUnverified := fun t =>
      if t == demoAccessToken then
        some { Method := SigningMethodHS256
               Claims := demoClaims
               SigningInput := demoSigningString SigningMethodHS256 demoClaims
               Signature := demoHmac HashAlg.SHA256 "k1"
                 (demoSigningString SigningMethodHS256 demoClaims) }
      else none
    base64URL := fun bytes => String.mk (bytes.map Char.ofNat)
    bcryptCompare := fun hash password => hash == password }

/-- The user of the examples. -/
def demoUser : User :=
  { ID := 42, Name := "A", Email := "a@x.com", Password := "pw", CreatedAt := 0, UpdatedAt := 0 }

/-- A refresh token of user 42 that is valid until instant 1000. -/
def demoRow : RefreshToken :=
  { ID := 1, UserID := 42, Token := "RT1", ExpiresAt := 1000, CreatedAt := 0, IsValid := true }

/-- A table holding the example refresh token only. -/
def demoTable : Table := [demoRow]

/-- An environment of `GenerateRefreshToken` without faults: the random
bytes spell `RT2`, the lifetime is the default, the clock reads 10. -/
def demoGenEnv : GenEnv :=
  { randBytes := [82, 84, 50], randErr := none, refreshExpiry := none, now1 := 10, now2 := 10,
    newID := 2, createFault := none }

/-- An environment of `RefreshAccessToken` without faults, at instant 10. -/
def demoRefreshEnv : RefreshEnv :=
  { getFault := none, nowCheck := 10, jwtNow1 := 10, jwtNow2 := 10, signFault := none,
    gen := demoGenEnv, invalidateFault := none }

/-- A database call abandoned at its 5 second deadline. -/
def demoTimeout : Error := Error.other "context deadline exceeded"

/-- The environment `demoRefreshEnv`, except that the final `Invalidate`
runs into the deadline. -/
def demoRefreshEnvStale : RefreshEnv :=
  { demoRefreshEnv with invalidateFault := some demoTimeout }

/-- An environment of a later `RefreshAccessToken` without faults, at instant
20; the random bytes spell `RT3`. -/
def demoRefreshEnvLater : RefreshEnv :=
  { getFault := none, nowCheck := 20, jwtNow1 := 20, jwtNow2 := 20, signFault := none,
    gen := { randBytes := [82, 84, 51], randErr := none, refreshExpiry := none, now1 := 20,
             now2 := 20, newID := 3, createFault := none },
    invalidateFault := none }

/-- The size of the hash in bits. -/
def HashAlg.bits (h : HashAlg) : Nat :=
  match h with
  | HashAlg.SHA256 => 256
  | HashAlg.SHA384 => 384
  | HashAlg.SHA512 => 512

/-- A stand-in for the MAC that also depends on the hash. -/
def demoHmacOf (h : HashAlg) (key msg : String) : List Nat :=
  h.bits :: demoHmac h key msg

/-- A stand-in for the signed text that also tells whether `exp` is there. -/
def demoSigningStringOf (m : SigningMethod) (c : TokenClaims) : String :=
  demoSigningString m c ++
    (match c.ExpiresAt with
      | some _ => ",exp"
      | none => "")

/-- The second instance without its parser. -/
def demoSigner : Lib :=
  { hmac := demoHmacOf
    signOther := fun _ _ _ => []
    verifyOther := fun _ _ _ _ => true
    signingString := demoSigningStringOf
    encodeSegment := demoEncodeSegment
    parseUnverified := fun _ => none
    base64URL := fun bytes => String.mk (bytes.map Char.ofNat)
    bcryptCompare := fun hash password => hash == password }

/-- What a parser reads from the token that `SignedString` assembles from the
given method, claims and key. -/
def demoParsed (m : SigningMethod) (c : TokenClaims) (key : String) : ParsedToken :=
  { Method := m
    Claims := c
    SigningInput := demoSigningStringOf m c
    Signature := m.Sign demoSigner (demoSigningStringOf m c) key }

/-- The example claims signed with HS384 under `k1`. -/
def demoHS384Token : String :=
  (SignedString demoSigner (SigningMethod.HMAC HashAlg.SHA384) demoClaims "k1" none).1

/-- The example claims in a token tagged `RS256`. -/
def demoRS256Token : String :=
  (SignedString demoSigner (SigningMethod.other "RS256") demoClaims "k1" none).1

/-- The example claims without `exp`. -/
def demoNoExpClaims : TokenClaims :=
  { demoClaims with ExpiresAt := none }

/-- The claims without `exp` signed with HS256 under `k1`. -/
def demoNoExpToken : String :=
  (SignedString demoSigner SigningMethodHS256 demoNoExpClaims "k1" none).1

/-- The claims that `GenerateJWT` builds for user 42 with an empty email. -/
def demoNoEmailClaims : TokenClaims :=
  demoService.claimsFor 42 "" 0 0

/-- The claims with an empty email signed with HS256 under `k1`. -/
def demoNoEmailToken : String :=
  (SignedString demoSigner SigningMethodHS256 demoNoEmailClaims "k1" none).1

/-- The second library instance: its parser reads the four tokens above and
rejects every other string. -/
def demoLibWide : Lib :=
  { demoSigner with
    parseUnverified := fun t =>
      if t == demoHS384Token then
        some (demoParsed (SigningMethod.HMAC HashAlg.SHA384) demoClaims "k1")
      else if t == demoRS256Token then
        some (demoParsed (SigningMethod.other "RS256") demoClaims "k1")
      else if t == demoNoExpToken then
        some (demoParsed SigningMethodHS256 demoNoExpClaims "k1")
      else if t == demoNoEmailToken then
        some (demoParsed SigningMethodHS256 demoNoEmailClaims "k1")
      else none }

/-- A second user, 7. -/
def demoUserB : User :=
  { ID := 7, Name := "B", Email := "b@x.com", Password := "pw", CreatedAt := 0, UpdatedAt := 0 }

/-- The users of the examples. -/
def demoUsers : Users := [demoUser, demoUserB]

/-- A refresh token of user 7 that is valid until instant 1000. -/
def demoRowB : RefreshToken :=
  { ID := 5, UserID := 7, Token := "RTB", ExpiresAt := 1000, CreatedAt := 0, IsValid := true }

/-- A table holding the refresh tokens of users 42 and 7. -/
def demoTableAB : Table := [demoRow, demoRowB]

/-- A request that presents the example access token of user 42 in the header
and the refresh token of user 7 in the body. -/
def demoCrossRequest : Request :=
  { Authorization := "Bearer " ++ demoAccessToken
    refreshBody := some { RefreshToken := "RTB" }
    ctxUserID := none
    ctxEmail := none }

/-- A request that presents the token with the empty email claim in the header
and the refresh token of user 7 in the body. -/
def demoNoEmailRequest : Request :=
  { Authorization := "Bearer " ++ demoNoEmailToken
    refreshBody := some { RefreshToken := "RTB" }
    ctxUserID := none
    ctxEmail := none }

/-- An environment of the `RefreshToken` handler without faults, at instant
10. -/
def demoRefreshHandlerEnv : RefreshHandlerEnv :=
  { nowValidate := 10, hintGetFault := none, hintUserFault := none, refresh := demoRefreshEnv }

/-- An environment of `Logout` without faults whose clock reads the instant at
which the example access token expires. -/
def demoLogoutEnv : LogoutEnv :=
  { nowValidate := 900 * Second, getFault := none, invalidateFault := none }

/-- An environment of `GenerateRefreshToken` without faults in which
`REFRESH_TOKEN_EXPIRY` is `-1h`. -/
def demoGenEnvNegative : GenEnv :=
  { demoGenEnv with refreshExpiry := some (-1 * Hour) }

/-- The environment `demoRefreshEnv`, except that the lookup runs into the
deadline. -/
def demoRefreshEnvLookupTimeout : RefreshEnv :=
  { demoRefreshEnv with getFault := some demoTimeout }

/-- Two calls of `RefreshAccessToken` on the example token `RT1`, run step by
step in alternation on the example table: both look up the row, then both
insert their new token, then both invalidate `RT1`. -/
def demoRace : Call × Call × Table :=
  interleave demoLib demoService [true, false, true, false, true, false]
    (Call.new "RT1" "a@x.com" demoRefreshEnv, Call.new "RT1" "a@x.com" demoRefreshEnvLater,
      demoTable)

/-- The same two calls run one after the other. -/
def demoNoRace : Call × Call × Table :=
  interleave demoLib demoService [true, true, true, false, false, false]
    (Call.new "RT1" "a@x.com" demoRefreshEnv, Call.new "RT1" "a@x.com" demoRefreshEnvLater,
      demoTable)

/-! ## A third instance

A library instance whose MAC is HMAC over an arbitrary hash function. -/

theorem getByToken_found {db : Table} {T : String} {fault : Option Error} {r : RefreshToken}
    (h : RefreshTokenRepository.GetByToken db T fault = (some r, none)) :
    fault = none ∧ db.find? (fun x => x.Token == T) = some r ∧ r ∈ db ∧ r.Token = T := by
  unfold RefreshTokenRepository.GetByToken at h
  cases fault with
  | some e => simp at h
  | none =>
    cases hf : db.find? (fun x => x.Token == T) with
    | none => simp [hf] at h
    | some x =>
      simp [hf] at h
      subst h
      refine ⟨rfl, rfl, List.mem_of_find?_eq_some hf, ?_⟩
      have := List.find?_some hf
      simpa using this

theorem getByToken_cases (db : Table) (T : String) (fault : Option Error) :
    (∃ e, RefreshTokenRepository.GetByToken db T fault = (none, some e)) ∨
    (∃ r, RefreshTokenRepository.GetByToken db T fault = (some r, none)) := by
  unfold RefreshTokenRepository.GetByToken
  cases fault with
  | some e => exact Or.inl ⟨e, rfl⟩
  | none =>
    cases hf : db.find? (fun x => x.Token == T) with
    | none => exact Or.inl ⟨Error.ErrNoRows, by simp⟩
    | some x => exact Or.inr ⟨x, by simp⟩

/-- A lookup that does not return a valid, unexpired row makes
`RefreshAccessToken` answer `ErrInvalidToken` and leave the table alone. -/
theorem refresh_invalid_of_lookup (lib : Lib) (s : Service) (db : Table) (T email : String)
    (env : RefreshEnv)
    (h : ∀ r, RefreshTokenRepository.GetByToken db T env.getFault = (some r, none) →
      r.IsValid = false ∨ r.IsExpired env.nowCheck = true) :
    s.RefreshAccessToken lib db T email env = ("", none, some Error.ErrInvalidToken, db) := by
  unfold Service.RefreshAccessToken
  rcases getByToken_cases db T env.getFault with ⟨e, he⟩ | ⟨r, hr⟩
  · rw [he]
  · rw [hr]
    rcases h r hr with hv | hx
    · simp [hv]
    · simp [hx]

/-- When every row stored under `T` is invalid, `RefreshAccessToken` on `T`
answers `ErrInvalidToken`. -/
theorem refresh_invalid_of_rows (lib : Lib) (s : Service) (db : Table) (T email : String)
    (env : RefreshEnv) (h : ∀ r ∈ db, r.Token = T → r.IsValid = false) :
    s.RefreshAccessToken lib db T email env = ("", none, some Error.ErrInvalidToken, db) := by
  apply refresh_invalid_of_lookup
  intro r hr
  obtain ⟨_, _, hmem, htok⟩ := getByToken_found hr
  exact Or.inl (h r hmem htok)

theorem invalidate_rows (db : Table) (T : String) :
    ∀ r ∈ (RefreshTokenRepository.Invalidate db T none).2, r.Token = T → r.IsValid = false := by
  intro r hr ht
  simp only [RefreshTokenRepository.Invalidate, List.mem_map] at hr
  obtain ⟨x, _, hx⟩ := hr
  by_cases hxt : x.Token = T
  · simp [hxt] at hx
    rw [← hx]
  · simp [hxt] at hx
    subst hx
    exact absurd ht hxt

theorem generateJWT_cases (lib : Lib) (s : Service) (user : User) (now1 now2 : Time)
    (signFault : Option Error) :
    (∃ e, signFault = some e ∧ s.GenerateJWT lib user now1 now2 signFault = ("", some e)) ∨
    (signFault = none ∧
      s.GenerateJWT lib user now1 now2 signFault =
        (s.signed lib (s.claimsFor user.ID user.Email now1 now2), none)) := by
  cases signFault with
  | some e => exact Or.inl ⟨e, rfl, by simp [Service.GenerateJWT, SignedString]⟩
  | none => exact Or.inr ⟨rfl, by simp [Service.GenerateJWT, SignedString, Service.signed]⟩

theorem createFails_iff (lib : Lib) (db : Table) (userID : Int) (env : GenEnv) :
    env.CreateFails lib db userID ↔
      (env.createFault ≠ none ∨
        db.any (fun x => x.Token == lib.base64URL env.randBytes) = true) := by
  unfold GenEnv.CreateFails RefreshTokenRepository.Create
  cases hcf : env.createFault with
  | some e => simp
  | none =>
    cases hany : db.any (fun x => x.Token == lib.base64URL env.randBytes) with
    | true =>
      have : (db.any fun r => r.Token == (env.entity lib userID).Token) = true := hany
      simp [this]
    | false =>
      have : (db.any fun r => r.Token == (env.entity lib userID).Token) = false := hany
      simp [this]

theorem generateRefreshToken_cases (lib : Lib) (db : Table) (userID : Int) (env : GenEnv) :
    (∃ e, Service.GenerateRefreshToken lib db userID env = (none, some e, db) ∧
      (env.CreateFails lib db userID ∨ env.randErr = some e)) ∨
    (env.randErr = none ∧ env.createFault = none ∧
      db.any (fun x => x.Token == lib.base64URL env.randBytes) = false ∧
      ¬ env.CreateFails lib db userID ∧
      Service.GenerateRefreshToken lib db userID env =
        (some (env.row lib userID), none, db ++ [env.row lib userID])) := by
  have hiff := createFails_iff lib db userID env
  unfold Service.GenerateRefreshToken
  cases hre : env.randErr with
  | some e => exact Or.inl ⟨e, rfl, Or.inr rfl⟩
  | none =>
    have hent : NewRefreshToken userID (lib.base64URL env.randBytes)
        (match env.refreshExpiry with
          | some d => d
          | none => 7 * 24 * Hour) env.now1 env.now2 = env.entity lib userID := rfl
    simp only [hent]
    unfold RefreshTokenRepository.Create
    cases hcf : env.createFault with
    | some e =>
      refine Or.inl ⟨e, rfl, Or.inl ?_⟩
      rw [hiff]; simp [hcf]
    | none =>
      cases hany : db.any (fun x => x.Token == lib.base64URL env.randBytes) with
      | true =>
        have h2 : (db.any fun r => r.Token == (env.entity lib userID).Token) = true := hany
        refine Or.inl ⟨uniqueViolation, ?_, Or.inl ?_⟩
        · simp only [h2]; rfl
        · rw [hiff]; simp [hany]
      | false =>
        have h2 : (db.any fun r => r.Token == (env.entity lib userID).Token) = false := hany
        refine Or.inr ⟨by trivial, by trivial, by trivial, ?_, ?_⟩
        · rw [hiff]; simp [hcf, hany]
        · simp only [h2]; rfl

/-- What a successful `RefreshAccessToken` did: the lookup found a valid,
unexpired row, nothing faulted up to the insert, the new token was not in the
table, and the result is the signed claims of the row's owner, the stored row,
and the table after the insert and the final `Invalidate`. -/
theorem refresh_success (lib : Lib) (s : Service) (db : Table) (T email : String)
    (env : RefreshEnv) (h : (s.RefreshAccessToken lib db T email env).2.2.1 = none) :
    ∃ r, RefreshTokenRepository.GetByToken db T env.getFault = (some r, none) ∧
      r.IsValid = true ∧ r.IsExpired env.nowCheck = false ∧
      env.signFault = none ∧ env.gen.randErr = none ∧ env.gen.createFault = none ∧
      db.any (fun x => x.Token == lib.base64URL env.gen.randBytes) = false ∧
      s.RefreshAccessToken lib db T email env =
        (s.signed lib (s.claimsFor r.UserID email env.jwtNow1 env.jwtNow2),
         some (env.gen.row lib r.UserID), none,
         (RefreshTokenRepository.Invalidate (db ++ [env.gen.row lib r.UserID]) T
            env.invalidateFault).2) := by
  rcases getByToken_cases db T env.getFault with ⟨e, he⟩ | ⟨r, hr⟩
  · simp [Service.RefreshAccessToken, he] at h
  · refine ⟨r, hr, ?_⟩
    unfold Service.RefreshAccessToken at h ⊢
    rw [hr] at h ⊢
    cases hv : r.IsValid <;> cases hx : r.IsExpired env.nowCheck <;>
      simp only [hv, hx, Bool.not_true, Bool.not_false, Bool.or_true, Bool.or_false,
        Bool.true_or, Bool.false_or, if_true, if_false, Bool.false_eq_true, reduceCtorEq] at h ⊢
    rcases generateJWT_cases lib s
        { ID := r.UserID, Name := "", Email := email, Password := "", CreatedAt := 0,
          UpdatedAt := 0 } env.jwtNow1 env.jwtNow2 env.signFault with ⟨e, _, hj⟩ | ⟨hsf, hj⟩
    · rw [hj] at h; simp at h
    · rw [hj] at h ⊢
      rcases generateRefreshToken_cases lib db r.UserID env.gen with
        ⟨e, hg, _⟩ | ⟨hre, hcf, hany, _, hg⟩
      · simp only [hg] at h; simp at h
      · simp only [hg]
        exact ⟨trivial, trivial, hsf, hre, hcf, hany, trivial⟩

/-- A failing `RefreshAccessToken` returns the empty access token and no
refresh token, and leaves the table as it was. -/
theorem refresh_failure (lib : Lib) (s : Service) (db : Table) (T email : String)
    (env : RefreshEnv) (h : (s.RefreshAccessToken lib db T email env).2.2.1 ≠ none) :
    ∃ e, s.RefreshAccessToken lib db T email env = ("", none, some e, db) := by
  rcases getByToken_cases db T env.getFault with ⟨e, he⟩ | ⟨r, hr⟩
  · exact ⟨Error.ErrInvalidToken, by simp [Service.RefreshAccessToken, he]⟩
  · unfold Service.RefreshAccessToken at h ⊢
    rw [hr] at h ⊢
    cases hv : r.IsValid <;> cases hx : r.IsExpired env.nowCheck <;>
      simp only [hv, hx, Bool.not_true, Bool.not_false, Bool.or_true, Bool.or_false,
        Bool.true_or, Bool.false_or, if_true, if_false, Bool.false_eq_true, reduceCtorEq] at h ⊢
    · exact ⟨_, rfl⟩
    · exact ⟨_, rfl⟩
    · rcases generateJWT_cases lib s
          { ID := r.UserID, Name := "", Email := email, Password := "", CreatedAt := 0,
            UpdatedAt := 0 } env.jwtNow1 env.jwtNow2 env.signFault with ⟨e, _, hj⟩ | ⟨hsf, hj⟩
      · rw [hj]; exact ⟨e, rfl⟩
      · rw [hj] at h ⊢
        rcases generateRefreshToken_cases lib db r.UserID env.gen with
          ⟨e, hg, _⟩ | ⟨hre, hcf, hany, _, hg⟩
        · simp only [hg]; exact ⟨e, rfl⟩
        · simp only [hg] at h; simp at h
    · exact ⟨_, rfl⟩

theorem createFails_irrelevant_user (lib : Lib) (db : Table) (u v : Int) (env : GenEnv)
    (h : env.CreateFails lib db u) : env.CreateFails lib db v :=
  (createFails_iff lib db v env).2 ((createFails_iff lib db u env).1 h)

theorem row_mem_append (lib : Lib) (db : Table) (userID : Int) (env : GenEnv) :
    env.row lib userID ∈ db ++ [env.row lib userID] := by
  simp

/-- The row stored by a successful rotation is still valid after the final
`Invalidate` of the old token, whether or not that call faults. -/
theorem row_survives_invalidate (lib : Lib) (db : Table) (T : String) (userID : Int)
    (env : GenEnv) (fault : Option Error) (r : RefreshToken) (hr : r ∈ db) (hT : r.Token = T)
    (hany : db.any (fun x => x.Token == lib.base64URL env.randBytes) = false) :
    env.row lib userID ∈
      (RefreshTokenRepository.Invalidate (db ++ [env.row lib userID]) T fault).2 := by
  have hne : ¬ (env.row lib userID).Token = T := by
    intro hEq
    simp only [List.any_eq_false] at hany
    have := hany r hr
    apply this
    simp only [beq_iff_eq]
    rw [hT, ← hEq]
    rfl
  cases fault with
  | some e => simp [RefreshTokenRepository.Invalidate]
  | none =>
    simp only [RefreshTokenRepository.Invalidate, List.mem_map]
    exact ⟨env.row lib userID, row_mem_append lib db userID env, by simp [hne]⟩

theorem login_json (lib : Lib) (s : Service) (users : Users) (db : Table) (env : LoginEnv)
    (a : AuthResponse) (h : (AuthHandler.Login lib s users db env).1.body = Body.json a) :
    ∃ user : User, ¬ env.gen.CreateFails lib db user.ID ∧
      AuthHandler.Login lib s users db env =
        ({ status := 200,
           body := Body.json (s.authResponse
             (s.signed lib (s.claimsFor user.ID user.Email env.jwtNow1 env.jwtNow2))
             (env.gen.row lib user.ID)) },
         db ++ [env.gen.row lib user.ID]) := by
  unfold AuthHandler.Login at h ⊢
  split at h
  · simp [httpError] at h
  · split at h
    · simp [httpError] at h
    · rename_i hfields
      split at h
      · split at h <;> simp [httpError] at h
      · simp [httpError] at h
      · rename_i user hget
        split at h
        · simp [httpError] at h
        · rename_i hpw
          rcases generateJWT_cases lib s user env.jwtNow1 env.jwtNow2 env.signFault with
            ⟨e, _, hj⟩ | ⟨hsf, hj⟩
          · rw [hj] at h; simp [httpError] at h
          · rcases generateRefreshToken_cases lib db user.ID env.gen with
              ⟨e, hg, _⟩ | ⟨hre, hcf, hany, hnf, hg⟩
            · rw [hj, hg] at h; simp [httpError] at h
            · refine ⟨user, hnf, ?_⟩
              rw [if_neg hfields, if_neg hpw, hj, hg]

theorem register_json (lib : Lib) (s : Service) (users : Users) (db : Table)
    (env : RegisterEnv) (a : AuthResponse)
    (h : (AuthHandler.Register lib s users db env).1.body = Body.json a) :
    ∃ user : User, ¬ env.gen.CreateFails lib db user.ID ∧
      (AuthHandler.Register lib s users db env).1 =
        { status := 201,
          body := Body.json (s.authResponse
            (s.signed lib (s.claimsFor user.ID user.Email env.jwtNow1 env.jwtNow2))
            (env.gen.row lib user.ID)) } ∧
      (AuthHandler.Register lib s users db env).2.2 = db ++ [env.gen.row lib user.ID] := by
  unfold AuthHandler.Register at h ⊢
  split at h
  · simp [httpError] at h
  · split at h
    · simp [httpError] at h
    · rename_i hfields
      split at h
      · simp [httpError] at h
      · rename_i err hget
        split at h
        · simp [httpError] at h
        · rename_i hnorows
          split at h
          · simp [httpError] at h
          · simp [httpError] at h
          · rename_i user0 hnew
            split at h
            · simp [httpError] at h
            · rename_i user users1 hcreate
              rcases generateJWT_cases lib s user env.jwtNow1 env.jwtNow2 env.signFault with
                ⟨e, _, hj⟩ | ⟨hsf, hj⟩
              · rw [hj] at h; simp [httpError] at h
              · rcases generateRefreshToken_cases lib db user.ID env.gen with
                  ⟨e, hg, _⟩ | ⟨hre, hcf, hany, hnf, hg⟩
                · rw [hj, hg] at h; simp [httpError] at h
                · refine ⟨user, hnf, ?_⟩
                  rw [if_neg hfields, if_neg hnorows, hj, hg]
                  exact ⟨rfl, rfl⟩

theorem signed_ne_empty (lib : Lib) (s : Service) (claims : TokenClaims) :
    s.signed lib claims ≠ "" := by
  intro h
  have hlen := congrArg String.length h
  simp [Service.signed, SignedString, String.length_append] at hlen
  have : ".".length = 1 := rfl
  omega

/-- How `ValidateJWT` answers on a token that the parser reads as method
HS256, claims `claims` without `nbf`, and the signature made under `key`. -/
theorem validateJWT_of_parse (lib : Lib) (s : Service) (t : String) (claims : TokenClaims)
    (key : String) (now : Time)
    (hparse : lib.parseUnverified t =
      some { Method := SigningMethodHS256
             Claims := claims
             SigningInput := lib.signingString SigningMethodHS256 claims
             Signature := SigningMethodHS256.Sign lib
               (lib.signingString SigningMethodHS256 claims) key })
    (hnbf : claims.NotBefore = none) :
    s.ValidateJWT lib t now =
      if lib.hmac HashAlg.SHA256 s.jwtSecret (lib.signingString SigningMethodHS256 claims) =
          lib.hmac HashAlg.SHA256 key (lib.signingString SigningMethodHS256 claims) then
        match claims.ExpiresAt with
        | some exp => if now < exp then (some claims, none) else (none, some Error.ErrExpiredToken)
        | none => (some claims, none)
      else (none, some Error.ErrInvalidToken) := by
  unfold Service.ValidateJWT ParseWithClaims
  rw [hparse]
  simp only [SigningMethodHS256, Service.keyFunc, SigningMethod.Verify, SigningMethod.Sign,
    Validate, hnbf]
  by_cases hmac : lib.hmac HashAlg.SHA256 s.jwtSecret
      (lib.signingString (SigningMethod.HMAC HashAlg.SHA256) claims) =
      lib.hmac HashAlg.SHA256 key (lib.signingString (SigningMethod.HMAC HashAlg.SHA256) claims)
  · simp only [hmac, beq_self_eq_true, Bool.not_true, Bool.false_eq_true, if_false, if_true]
    cases hexp : claims.ExpiresAt with
    | none => simp
    | some exp =>
      by_cases hlt : now < exp
      · simp [hlt]
      · simp [hlt, errorsIs]
  · have hb : (lib.hmac HashAlg.SHA256 s.jwtSecret
        (lib.signingString (SigningMethod.HMAC HashAlg.SHA256) claims) ==
        lib.hmac HashAlg.SHA256 key
          (lib.signingString (SigningMethod.HMAC HashAlg.SHA256) claims)) = false := by
      simpa using hmac
    simp [hb, hmac, errorsIs]

/-! ## Lemmas on the decimal rendering -/

theorem toDigitsCore_digits (fuel : Nat) : ∀ (n : Nat) (ds : List Char), 0 < n → n < fuel →
    Nat.toDigitsCore 10 fuel n ds = (Nat.digits 10 n).reverse.map Nat.digitChar ++ ds := by
  induction fuel with
  | zero => intro n ds _ h; omega
  | succ fuel ih =>
    intro n ds hn hf
    have hd : Nat.digits 10 n = (n % 10) :: Nat.digits 10 (n / 10) :=
      Nat.digits_def' (by norm_num) hn
    unfold Nat.toDigitsCore
    by_cases h0 : n / 10 = 0
    · simp [h0, hd]
    · have hpos : 0 < n / 10 := Nat.pos_of_ne_zero h0
      have hlt : n / 10 < fuel := by omega
      simp only [h0, if_false]
      rw [ih (n / 10) _ hpos hlt, hd]
      simp

theorem natRepr_digits (n : Nat) (hn : 0 < n) :
    Nat.repr n = String.mk ((Nat.digits 10 n).reverse.map Nat.digitChar) := by
  unfold Nat.repr Nat.toDigits
  rw [toDigitsCore_digits (n + 1) n [] hn (by omega)]
  simp [List.asString]

/-- What `fmt.Sprintf("%d", n)` returns is the decimal rendering of `n`. -/
theorem fmtDecimal_eq_decimalRendering (n : Int) : fmtDecimal n = decimalRendering n := by
  unfold fmtDecimal decimalRendering
  cases n with
  | ofNat m =>
    cases m with
    | zero => rfl
    | succ k =>
      show Nat.repr (k + 1) = _
      rw [natRepr_digits (k + 1) (by omega)]
      have h1 : ¬ (Int.ofNat (k + 1) < 0) := Int.not_lt.mpr (Int.ofNat_nonneg _)
      have h2 : ¬ (Int.ofNat (k + 1) = 0) := by
        intro h; cases h
      simp only [h1, h2, if_false]
      rfl
  | negSucc m =>
    show "-" ++ Nat.repr (m + 1) = _
    rw [natRepr_digits (m + 1) (by omega)]
    have h1 : Int.negSucc m < 0 := Int.negSucc_lt_zero m
    have h2 : ¬ (Int.negSucc m = 0) := by intro h; cases h
    simp only [h1, h2, if_true, if_false]
    rfl

theorem decimalRendering_42 : decimalRendering 42 = "42" := by
  rw [← fmtDecimal_eq_decimalRendering]
  decide

theorem decimalRendering_minus_7 : decimalRendering (-7) = "-7" := by
  rw [← fmtDecimal_eq_decimalRendering]
  decide

/-! ## Lemmas on HMAC -/

set_option maxRecDepth 100000 in
/-- The default lifetime of 15 minutes is reported as 900 seconds. -/
theorem wholeSeconds_quarter_hour : wholeSeconds (15 * Minute) = 900 := by
  decide

set_option maxRecDepth 100000 in
/-- The sum of `Duration.Seconds` is rounded to a `float64` before its fraction
is dropped: a nanosecond short of 16777217 seconds is reported as 16777217. -/
theorem wholeSeconds_rounds_sum : wholeSeconds 16777216999999999 = 16777217 := by
  decide

set_option maxRecDepth 100000 in
/-- A negative duration is reported as the negative of its magnitude. -/
theorem wholeSeconds_negative : wholeSeconds (-1999999999) = -1 := by
  decide

/-! ## Lemmas on later tables -/

theorem later_refl (db : Table) : Later db db :=
  Relation.ReflTransGen.refl

theorem later_step {db1 db2 db3 : Table} (h : Later db1 db2) (hs : StoreStep db2 db3) :
    Later db1 db3 :=
  Relation.ReflTransGen.tail h hs

/-- The table left by `GenerateRefreshToken` is a later table. -/
theorem generateRefreshToken_later (lib : Lib) (db : Table) (userID : Int) (env : GenEnv) :
    Later db (Service.GenerateRefreshToken lib db userID env).2.2 := by
  rcases generateRefreshToken_cases lib db userID env with ⟨e, hg, _⟩ | ⟨_, hcf, hany, _, hg⟩
  · rw [hg]; exact later_refl db
  · rw [hg]
    have hstep := StoreStep.create db (env.entity lib userID) env.newID env.createFault
    have hEq : (RefreshTokenRepository.Create db (env.entity lib userID) env.newID
        env.createFault).2.2 = db ++ [env.row lib userID] := by
      have h2 : (db.any fun r => r.Token == (env.entity lib userID).Token) = false := hany
      simp [RefreshTokenRepository.Create, hcf, h2, GenEnv.row]
    rw [hEq] at hstep
    exact later_step (later_refl db) hstep

/-- The table left by `RefreshAccessToken` is a later table. -/
theorem refresh_later (lib : Lib) (s : Service) (db : Table) (T email : String)
    (env : RefreshEnv) : Later db (s.RefreshAccessToken lib db T email env).2.2.2 := by
  by_cases herr : (s.RefreshAccessToken lib db T email env).2.2.1 = none
  · obtain ⟨r, _, _, _, _, _, hcf, hany, hres⟩ := refresh_success lib s db T email env herr
    rw [hres]
    have h1 := StoreStep.create db (env.gen.entity lib r.UserID) env.gen.newID
      env.gen.createFault
    have hEq : (RefreshTokenRepository.Create db (env.gen.entity lib r.UserID) env.gen.newID
        env.gen.createFault).2.2 = db ++ [env.gen.row lib r.UserID] := by
      have h2 : (db.any fun x => x.Token == (env.gen.entity lib r.UserID).Token) = false := hany
      simp [RefreshTokenRepository.Create, hcf, h2, GenEnv.row]
    rw [hEq] at h1
    exact later_step (later_step (later_refl db) h1)
      (StoreStep.invalidate (db ++ [env.gen.row lib r.UserID]) T env.invalidateFault)
  · obtain ⟨e, hres⟩ := refresh_failure lib s db T email env herr
    rw [hres]
    exact later_refl db

/-- The table left by `InvalidateAllTokensForUser` is a later table. -/
theorem invalidateAll_later (db : Table) (userID : Int) (fault : Option Error) :
    Later db (Service.InvalidateAllTokensForUser db userID fault).2 :=
  later_step (later_refl db) (StoreStep.invalidateAll db userID fault)

theorem spent_step {T : String} {db1 db2 : Table} (h : Spent T db1) (hs : StoreStep db1 db2) :
    Spent T db2 := by
  obtain ⟨⟨r, hr, hT⟩, hall⟩ := h
  cases hs with
  | create token newID fault =>
    unfold RefreshTokenRepository.Create
    cases fault with
    | some e => exact ⟨⟨r, hr, hT⟩, hall⟩
    | none =>
      cases hany : db1.any (fun x => x.Token == token.Token) with
      | true => simp only [hany, if_true]; exact ⟨⟨r, hr, hT⟩, hall⟩
      | false =>
        simp only [hany, Bool.false_eq_true, if_false]
        refine ⟨⟨r, List.mem_append_left _ hr, hT⟩, ?_⟩
        intro x hx hxT
        rcases List.mem_append.mp hx with hx | hx
        · exact hall x hx hxT
        · simp only [List.mem_singleton] at hx
          subst hx
          simp only [List.any_eq_false] at hany
          exfalso
          apply hany r hr
          simp only [beq_iff_eq]
          rw [hT, ← hxT]
  | invalidate token fault =>
    unfold RefreshTokenRepository.Invalidate
    cases fault with
    | some e => exact ⟨⟨r, hr, hT⟩, hall⟩
    | none =>
      refine ⟨⟨if r.Token == token then { r with IsValid := false } else r,
        List.mem_map.mpr ⟨r, hr, rfl⟩, ?_⟩, ?_⟩
      · split <;> exact hT
      · intro x hx hxT
        obtain ⟨y, hy, hyx⟩ := List.mem_map.mp hx
        by_cases h : y.Token = token
        · simp [h] at hyx; rw [← hyx]
        · simp [h] at hyx; subst hyx; exact hall y hy hxT
  | invalidateAll userID fault =>
    unfold RefreshTokenRepository.InvalidateAllForUser
    cases fault with
    | some e => exact ⟨⟨r, hr, hT⟩, hall⟩
    | none =>
      refine ⟨⟨if r.UserID == userID then { r with IsValid := false } else r,
        List.mem_map.mpr ⟨r, hr, rfl⟩, ?_⟩, ?_⟩
      · split <;> exact hT
      · intro x hx hxT
        obtain ⟨y, hy, hyx⟩ := List.mem_map.mp hx
        by_cases h : y.UserID = userID
        · simp [h] at hyx; rw [← hyx]
        · simp [h] at hyx; subst hyx; exact hall y hy hxT

/-- A spent token value stays spent in every later table. -/
theorem spent_later {T : String} {db1 db2 : Table} (h : Spent T db1) (hl : Later db1 db2) :
    Spent T db2 := by
  induction hl with
  | refl => exact h
  | tail _ hs ih => exact spent_step ih hs

/-! ## The uniqueness of tokens is an invariant -/

theorem tokensUnique_nil : TokensUnique [] := by
  simp [TokensUnique]

theorem tokens_of_invalidate (db : Table) (p : RefreshToken → Bool) :
    (db.map (fun r => if p r then { r with IsValid := false } else r)).map (fun r => r.Token) =
      db.map (fun r => r.Token) := by
  rw [List.map_map]
  apply List.map_congr_left
  intro r _
  simp only [Function.comp]
  split <;> rfl

theorem tokensUnique_step {db1 db2 : Table} (h : TokensUnique db1) (hs : StoreStep db1 db2) :
    TokensUnique db2 := by
  cases hs with
  | create token newID fault =>
    unfold RefreshTokenRepository.Create
    cases fault with
    | some e => exact h
    | none =>
      cases hany : db1.any (fun x => x.Token == token.Token) with
      | true => simp only [hany, if_true]; exact h
      | false =>
        simp only [hany, Bool.false_eq_true, if_false]
        unfold TokensUnique at h ⊢
        rw [List.map_append, List.nodup_append]
        refine ⟨h, by simp, ?_⟩
        intro a ha hb
        simp only [List.map_cons, List.map_nil, List.mem_singleton] at hb
        obtain ⟨x, hx, hxa⟩ := List.mem_map.mp ha
        simp only [List.any_eq_false] at hany
        apply hany x hx
        simp only [beq_iff_eq]
        rw [hxa, hb]
  | invalidate token fault =>
    unfold RefreshTokenRepository.Invalidate
    cases fault with
    | some e => exact h
    | none =>
      unfold TokensUnique at h ⊢
      rw [tokens_of_invalidate db1 (fun r => r.Token == token)]
      exact h
  | invalidateAll userID fault =>
    unfold RefreshTokenRepository.InvalidateAllForUser
    cases fault with
    | some e => exact h
    | none =>
      unfold TokensUnique at h ⊢
      rw [tokens_of_invalidate db1 (fun r => r.UserID == userID)]
      exact h

/-- Every table that writes of the repository make of a table with pairwise
distinct tokens, in particular of the empty table, has pairwise distinct
tokens. -/
theorem tokensUnique_later {db1 db2 : Table} (h : TokensUnique db1) (hl : Later db1 db2) :
    TokensUnique db2 := by
  induction hl with
  | refl => exact h
  | tail _ hs ih => exact tokensUnique_step ih hs

/-! ## Rotation and revocation -/

/-- C1, as stated, fails: in the example table the rotation of `RT1` succeeds
although its final `Invalidate` runs into the deadline, the row of `RT1` stays
valid, and a second rotation of `RT1` on the table left by the first succeeds
as well instead of answering `ErrInvalidToken`. -/
theorem rotation_repeats_after_failed_invalidate :
    (demoService.RefreshAccessToken demoLib demoTable "RT1" "a@x.com" demoRefreshEnvStale).2.2.1
        = none ∧
    (demoService.RefreshAccessToken demoLib
        (demoService.RefreshAccessToken demoLib demoTable "RT1" "a@x.com"
          demoRefreshEnvStale).2.2.2
        "RT1" "b@x.com" demoRefreshEnvLater).2.2.1 = none ∧
    (demoService.RefreshAccessToken demoLib
        (demoService.RefreshAccessToken demoLib demoTable "RT1" "a@x.com"
          demoRefreshEnvStale).2.2.2
        "RT1" "b@x.com" demoRefreshEnvLater).1 ≠ "" := by
  decide

/-- C1 (amended): rotation is single-use when the old token was invalidated.
For every table, token value `T`, email hints and environments, if
`RefreshAccessToken(T, e)` returns without error and its final
`Invalidate(T)` did not fail, then every subsequent `RefreshAccessToken(T,
e')`, on the table left by the first or on any table that later writes of the
repository make of it, returns an empty access token, no refresh token and
`ErrInvalidToken`, and leaves the table as it is. -/
theorem rotation_single_use (lib : Lib) (s : Service) (db db' : Table) (T e e' : String)
    (env env' : RefreshEnv)
    (hok : (s.RefreshAccessToken lib db T e env).2.2.1 = none)
    (hinv : env.invalidateFault = none)
    (hlater : Later (s.RefreshAccessToken lib db T e env).2.2.2 db') :
    s.RefreshAccessToken lib db' T e' env' = ("", none, some Error.ErrInvalidToken, db') := by
  obtain ⟨r, hget, _, _, _, _, _, _, hres⟩ := refresh_success lib s db T e env hok
  obtain ⟨_, _, hmem, htok⟩ := getByToken_found hget
  rw [hres, hinv] at hlater
  have hspent : Spent T (RefreshTokenRepository.Invalidate
      (db ++ [env.gen.row lib r.UserID]) T none).2 := by
    refine ⟨⟨{ r with IsValid := false }, ?_, htok⟩, invalidate_rows _ T⟩
    simp only [RefreshTokenRepository.Invalidate, List.mem_map]
    exact ⟨r, List.mem_append_left _ hmem, by simp [htok]⟩
  exact refresh_invalid_of_rows lib s db' T e' env' (spent_later hspent hlater).2

theorem rotation_single_use_witness :
    (demoService.RefreshAccessToken demoLib demoTable "RT1" "a@x.com" demoRefreshEnv).2.2.1
        = none ∧
    demoService.RefreshAccessToken demoLib
        (demoService.RefreshAccessToken demoLib demoTable "RT1" "a@x.com" demoRefreshEnv).2.2.2
        "RT1" "b@x.com" demoRefreshEnvLater =
      ("", none, some Error.ErrInvalidToken,
        (demoService.RefreshAccessToken demoLib demoTable "RT1" "a@x.com"
          demoRefreshEnv).2.2.2) :=
  ⟨by decide,
    rotation_single_use demoLib demoService demoTable _ "RT1" "a@x.com" "b@x.com" demoRefreshEnv
      demoRefreshEnvLater (by decide) rfl (later_refl _)⟩

/-- C2: revocation blocks refresh.  In a table whose tokens are pairwise
distinct, for every user `u` and every stored row `r` of `u`, when
`InvalidateAllTokensForUser(u)` returns without error, `RefreshAccessToken`
called with the token of `r`, on the resulting table or on any table that
later writes of the repository make of it, returns `ErrInvalidToken` (with an
empty access token and no refresh token), whatever the email hint and the
environment. -/
theorem revocation_blocks_refresh (lib : Lib) (s : Service) (db db' : Table) (u : Int)
    (r : RefreshToken) (e : String) (fault : Option Error) (env : RefreshEnv)
    (huniq : TokensUnique db) (hr : r ∈ db) (hu : r.UserID = u)
    (hok : (Service.InvalidateAllTokensForUser db u fault).1 = none)
    (hlater : Later (Service.InvalidateAllTokensForUser db u fault).2 db') :
    s.RefreshAccessToken lib db' r.Token e env =
      ("", none, some Error.ErrInvalidToken, db') := by
  cases fault with
  | some err =>
    simp [Service.InvalidateAllTokensForUser, RefreshTokenRepository.InvalidateAllForUser] at hok
  | none =>
    have hspent : Spent r.Token (Service.InvalidateAllTokensForUser db u none).2 := by
      refine ⟨⟨{ r with IsValid := false }, ?_, rfl⟩, ?_⟩
      · simp only [Service.InvalidateAllTokensForUser,
          RefreshTokenRepository.InvalidateAllForUser, List.mem_map]
        exact ⟨r, hr, by simp [hu]⟩
      · intro x hx hxt
        simp only [Service.InvalidateAllTokensForUser,
          RefreshTokenRepository.InvalidateAllForUser, List.mem_map] at hx
        obtain ⟨y, hy, hyx⟩ := hx
        have hyt : y.Token = r.Token := by
          by_cases hyu : y.UserID = u
          · simp [hyu] at hyx; rw [← hyx] at hxt; exact hxt
          · simp [hyu] at hyx; rw [← hyx] at hxt; exact hxt
        have hyr : y = r := List.inj_on_of_nodup_map huniq hy hr hyt
        subst hyr
        simp [hu] at hyx
        rw [← hyx]
    exact refresh_invalid_of_rows lib s db' r.Token e env (spent_later hspent hlater).2

theorem revocation_blocks_refresh_witness :
    TokensUnique demoTable ∧ demoRow ∈ demoTable ∧ demoRow.UserID = 42 ∧
    (Service.InvalidateAllTokensForUser demoTable 42 none).1 = none ∧
    demoService.RefreshAccessToken demoLib
        (Service.InvalidateAllTokensForUser demoTable 42 none).2 demoRow.Token "a@x.com"
        demoRefreshEnv =
      ("", none, some Error.ErrInvalidToken,
        (Service.InvalidateAllTokensForUser demoTable 42 none).2) :=
  ⟨by unfold TokensUnique; decide, by decide, rfl, rfl,
    revocation_blocks_refresh demoLib demoService demoTable _ 42 demoRow "a@x.com" none
      demoRefreshEnv (by unfold TokensUnique; decide) (by decide) rfl rfl (later_refl _)⟩

/-- C3: one answer for the three rejections.  If the presented value is not in
the table, or the row stored under it has `IsValid = false`, or that row is
expired at the clock reading of the call, then `RefreshAccessToken` returns
the empty access token, no refresh token and `ErrInvalidToken`, and leaves the
table unchanged: the same result in the three cases. -/
theorem refresh_rejection_uniform (lib : Lib) (s : Service) (db : Table) (T email : String)
    (env : RefreshEnv)
    (h : (∀ r ∈ db, r.Token ≠ T) ∨
      (∃ r, RefreshTokenRepository.GetByToken db T none = (some r, none) ∧
        r.IsValid = false) ∨
      (∃ r, RefreshTokenRepository.GetByToken db T none = (some r, none) ∧
        r.IsExpired env.nowCheck = true)) :
    s.RefreshAccessToken lib db T email env = ("", none, some Error.ErrInvalidToken, db) := by
  apply refresh_invalid_of_lookup
  intro r hr
  obtain ⟨_, hfind, hmem, htok⟩ := getByToken_found hr
  rcases h with h | ⟨x, hx, hv⟩ | ⟨x, hx, hexp⟩
  · exact absurd htok (h r hmem)
  · have := (getByToken_found hx).2.1
    rw [hfind] at this
    cases this
    exact Or.inl hv
  · have := (getByToken_found hx).2.1
    rw [hfind] at this
    cases this
    exact Or.inr hexp

theorem refresh_rejection_uniform_witness :
    (∃ r, RefreshTokenRepository.GetByToken demoTable "RT1" none = (some r, none) ∧
        r.IsExpired 2000 = true) ∧
    demoService.RefreshAccessToken demoLib demoTable "RT1" "a@x.com"
        { demoRefreshEnv with nowCheck := 2000 } =
      ("", none, some Error.ErrInvalidToken, demoTable) :=
  ⟨⟨demoRow, rfl, by decide⟩,
    refresh_rejection_uniform demoLib demoService demoTable "RT1" "a@x.com"
      { demoRefreshEnv with nowCheck := 2000 } (Or.inr (Or.inr ⟨demoRow, rfl, by decide⟩))⟩

/-! ## Issuance -/

/-- C4: all-or-nothing issuance.  Whenever the insert of the refresh token
fails, no access token reaches the caller: the responses of `Login` and
`Register` carry no `AuthResponse`, and `RefreshAccessToken` returns an empty
access token and no refresh token.  Conversely, every `AuthResponse` of `Login`
and `Register` names a refresh token that is a row of the table afterwards with
`IsValid = true`, and every non-empty access token returned by
`RefreshAccessToken` comes with a refresh token that is such a row. -/
theorem issuance_all_or_nothing (lib : Lib) (s : Service) (users : Users) (db : Table) :
    (∀ (env : LoginEnv) (uid : Int), env.gen.CreateFails lib db uid →
      ∀ a, (AuthHandler.Login lib s users db env).1.body ≠ Body.json a) ∧
    (∀ (env : RegisterEnv) (uid : Int), env.gen.CreateFails lib db uid →
      ∀ a, (AuthHandler.Register lib s users db env).1.body ≠ Body.json a) ∧
    (∀ (T e : String) (env : RefreshEnv) (uid : Int), env.gen.CreateFails lib db uid →
      (s.RefreshAccessToken lib db T e env).1 = "" ∧
      (s.RefreshAccessToken lib db T e env).2.1 = none) ∧
    (∀ (env : LoginEnv) (a : AuthResponse),
      (AuthHandler.Login lib s users db env).1.body = Body.json a →
      ∃ rt ∈ (AuthHandler.Login lib s users db env).2,
        rt.Token = a.RefreshToken ∧ rt.IsValid = true) ∧
    (∀ (env : RegisterEnv) (a : AuthResponse),
      (AuthHandler.Register lib s users db env).1.body = Body.json a →
      ∃ rt ∈ (AuthHandler.Register lib s users db env).2.2,
        rt.Token = a.RefreshToken ∧ rt.IsValid = true) ∧
    (∀ (T e : String) (env : RefreshEnv), (s.RefreshAccessToken lib db T e env).1 ≠ "" →
      ∃ rt, (s.RefreshAccessToken lib db T e env).2.1 = some rt ∧
        rt ∈ (s.RefreshAccessToken lib db T e env).2.2.2 ∧ rt.IsValid = true) := by
  refine ⟨?_, ?_, ?_, ?_, ?_, ?_⟩
  · intro env uid hf a h
    obtain ⟨user, hnf, _⟩ := login_json lib s users db env a h
    exact hnf (createFails_irrelevant_user lib db uid user.ID env.gen hf)
  · intro env uid hf a h
    obtain ⟨user, hnf, _⟩ := register_json lib s users db env a h
    exact hnf (createFails_irrelevant_user lib db uid user.ID env.gen hf)
  · intro T e env uid hf
    by_cases herr : (s.RefreshAccessToken lib db T e env).2.2.1 = none
    · obtain ⟨r, _, _, _, _, _, hcf, hany, _⟩ := refresh_success lib s db T e env herr
      exact absurd hf (by rw [createFails_iff]; simp [hcf, hany])
    · obtain ⟨err, hres⟩ := refresh_failure lib s db T e env herr
      rw [hres]
      exact ⟨rfl, rfl⟩
  · intro env a h
    obtain ⟨user, _, hres⟩ := login_json lib s users db env a h
    rw [hres] at h ⊢
    refine ⟨env.gen.row lib user.ID, row_mem_append lib db user.ID env.gen, ?_, rfl⟩
    simp only [Body.json.injEq] at h
    rw [← h]
    rfl
  · intro env a h
    obtain ⟨user, _, hresp, hdb⟩ := register_json lib s users db env a h
    rw [hresp] at h
    rw [hdb]
    refine ⟨env.gen.row lib user.ID, row_mem_append lib db user.ID env.gen, ?_, rfl⟩
    simp only [Body.json.injEq] at h
    rw [← h]
    rfl
  · intro T e env hne
    by_cases herr : (s.RefreshAccessToken lib db T e env).2.2.1 = none
    · obtain ⟨r, hget, _, _, _, _, _, hany, hres⟩ := refresh_success lib s db T e env herr
      obtain ⟨_, _, hmem, htok⟩ := getByToken_found hget
      rw [hres]
      exact ⟨env.gen.row lib r.UserID, rfl,
        row_survives_invalidate lib db T r.UserID env.gen env.invalidateFault r hmem htok hany,
        rfl⟩
    · obtain ⟨err, hres⟩ := refresh_failure lib s db T e env herr
      rw [hres] at hne
      exact absurd rfl hne

theorem issuance_all_or_nothing_witness :
    (demoService.RefreshAccessToken demoLib demoTable "RT1" "a@x.com" demoRefreshEnv).1 ≠ "" ∧
    (∃ rt, (demoService.RefreshAccessToken demoLib demoTable "RT1" "a@x.com"
        demoRefreshEnv).2.1 = some rt ∧
      rt ∈ (demoService.RefreshAccessToken demoLib demoTable "RT1" "a@x.com"
        demoRefreshEnv).2.2.2 ∧ rt.IsValid = true) ∧
    ({ demoGenEnv with createFault := some demoTimeout } : GenEnv).CreateFails demoLib demoTable
      42 ∧
    (demoService.RefreshAccessToken demoLib demoTable "RT1" "a@x.com"
        { demoRefreshEnv with
          gen := { demoGenEnv with createFault := some demoTimeout } }).1 = "" :=
  have h := issuance_all_or_nothing demoLib demoService [demoUser] demoTable
  ⟨by decide,
    h.2.2.2.2.2 "RT1" "a@x.com" demoRefreshEnv (by decide),
    by unfold GenEnv.CreateFails; decide,
    (h.2.2.1 "RT1" "a@x.com"
      { demoRefreshEnv with gen := { demoGenEnv with createFault := some demoTimeout } } 42
      (by unfold GenEnv.CreateFails; decide)).1⟩

/-- C5: what a successful rotation returns.  When `RefreshAccessToken(old,
emailHint)` succeeds and `r` is the row stored under `old`, the access token
is the signed token of claims with `UserID = r.UserID`, `Subject` the decimal
rendering of `r.UserID` (its sign and base 10 digits, `decimalRendering`) and
`Email = emailHint`, and the returned refresh token
is a row of the table afterwards with `UserID = r.UserID` and `IsValid = true`
whose token string no row of the table before carried. -/
theorem rotation_result (lib : Lib) (s : Service) (db : Table) (old emailHint : String)
    (env : RefreshEnv) (r : RefreshToken)
    (hrow : RefreshTokenRepository.GetByToken db old none = (some r, none))
    (hok : (s.RefreshAccessToken lib db old emailHint env).2.2.1 = none) :
    ∃ (claims : TokenClaims) (rt : RefreshToken),
      (s.RefreshAccessToken lib db old emailHint env).1 = s.signed lib claims ∧
      claims.UserID = r.UserID ∧ claims.Subject = decimalRendering r.UserID ∧
      claims.Email = emailHint ∧
      (s.RefreshAccessToken lib db old emailHint env).2.1 = some rt ∧
      rt.UserID = r.UserID ∧ rt.IsValid = true ∧
      rt ∈ (s.RefreshAccessToken lib db old emailHint env).2.2.2 ∧
      ∀ x ∈ db, x.Token ≠ rt.Token := by
  obtain ⟨r', hget, _, _, _, _, _, hany, hres⟩ := refresh_success lib s db old emailHint env hok
  obtain ⟨_, hfind', hmem, htok⟩ := getByToken_found hget
  have hfind := (getByToken_found hrow).2.1
  rw [hfind'] at hfind
  cases hfind
  rw [hres]
  refine ⟨s.claimsFor r.UserID emailHint env.jwtNow1 env.jwtNow2, env.gen.row lib r.UserID,
    rfl, rfl, fmtDecimal_eq_decimalRendering r.UserID, rfl, rfl, rfl, rfl,
    row_survives_invalidate lib db old r.UserID env.gen env.invalidateFault r hmem htok hany, ?_⟩
  intro x hx hxt
  simp only [List.any_eq_false] at hany
  apply hany x hx
  simp only [beq_iff_eq]
  rw [hxt]
  rfl

theorem rotation_result_witness :
    RefreshTokenRepository.GetByToken demoTable "RT1" none = (some demoRow, none) ∧
    ∃ (claims : TokenClaims) (rt : RefreshToken),
      (demoService.RefreshAccessToken demoLib demoTable "RT1" "b@x.com" demoRefreshEnv).1 =
        demoService.signed demoLib claims ∧
      claims.UserID = 42 ∧ claims.Subject = "42" ∧
      claims.Email = "b@x.com" ∧
      (demoService.RefreshAccessToken demoLib demoTable "RT1" "b@x.com" demoRefreshEnv).2.1 =
        some rt ∧
      rt.UserID = 42 ∧ rt.IsValid = true ∧
      rt ∈ (demoService.RefreshAccessToken demoLib demoTable "RT1" "b@x.com"
        demoRefreshEnv).2.2.2 ∧
      ∀ x ∈ demoTable, x.Token ≠ rt.Token := by
  obtain ⟨claims, rt, h1, h2, h3, h4, h5, h6, h7, h8, h9⟩ :=
    rotation_result demoLib demoService demoTable "RT1" "b@x.com" demoRefreshEnv demoRow rfl
      (by decide)
  exact ⟨rfl, claims, rt, h1, h2, h3.trans decimalRendering_42, h4, h5, h6, h7, h8, h9⟩

/-- C6: rotation never reuses the old token string.  For every outcome of the
random bytes (and of the rest of the environment), whenever
`RefreshAccessToken(RT1, e)` succeeds and returns the refresh token `rt2`, the
token string of `rt2` differs from `RT1`; the insert refuses a token that a
row already carries. -/
theorem rotation_new_token_differs (lib : Lib) (s : Service) (db : Table) (RT1 e : String)
    (env : RefreshEnv) (rt2 : RefreshToken)
    (hok : (s.RefreshAccessToken lib db RT1 e env).2.2.1 = none)
    (hrt : (s.RefreshAccessToken lib db RT1 e env).2.1 = some rt2) :
    rt2.Token ≠ RT1 := by
  obtain ⟨r, hget, _, _, _, _, _, hany, hres⟩ := refresh_success lib s db RT1 e env hok
  obtain ⟨_, _, hmem, htok⟩ := getByToken_found hget
  rw [hres] at hrt
  simp only [Option.some.injEq] at hrt
  subst hrt
  intro hEq
  simp only [List.any_eq_false] at hany
  apply hany r hmem
  simp only [beq_iff_eq]
  rw [htok, ← hEq]
  rfl

theorem rotation_new_token_differs_witness :
    (demoService.RefreshAccessToken demoLib demoTable "RT1" "a@x.com" demoRefreshEnv).2.2.1
        = none ∧
    (demoService.RefreshAccessToken demoLib demoTable "RT1" "a@x.com" demoRefreshEnv).2.1 =
      some (demoGenEnv.row demoLib 42) ∧
    (demoGenEnv.row demoLib 42).Token ≠ "RT1" :=
  ⟨by decide, by decide,
    rotation_new_token_differs demoLib demoService demoTable "RT1" "a@x.com" demoRefreshEnv
      (demoGenEnv.row demoLib 42) (by decide) (by decide)⟩

/-- C7: the final invalidation is best effort.  If the lookup returns a row
that is valid and not expired, signing the access token succeeds and the new
refresh token is created, then `RefreshAccessToken` returns that access token
and that refresh token with a nil error although the final `Invalidate` of the
old token returns an error; the table is the one left by the insert. -/
theorem rotation_survives_failed_invalidate (lib : Lib) (s : Service) (db : Table)
    (T e : String) (env : RefreshEnv) (r : RefreshToken) (err : Error)
    (hget : RefreshTokenRepository.GetByToken db T env.getFault = (some r, none))
    (hvalid : r.IsValid = true) (hfresh : r.IsExpired env.nowCheck = false)
    (hsign : (s.GenerateJWT lib
        { ID := r.UserID, Name := "", Email := e, Password := "", CreatedAt := 0, UpdatedAt := 0 }
        env.jwtNow1 env.jwtNow2 env.signFault).2 = none)
    (hgen : (Service.GenerateRefreshToken lib db r.UserID env.gen).2.1 = none)
    (hinv : (RefreshTokenRepository.Invalidate
        (Service.GenerateRefreshToken lib db r.UserID env.gen).2.2 T env.invalidateFault).1
          = some err) :
    s.RefreshAccessToken lib db T e env =
      ((s.GenerateJWT lib
          { ID := r.UserID, Name := "", Email := e, Password := "", CreatedAt := 0,
            UpdatedAt := 0 } env.jwtNow1 env.jwtNow2 env.signFault).1,
       (Service.GenerateRefreshToken lib db r.UserID env.gen).1, none,
       (Service.GenerateRefreshToken lib db r.UserID env.gen).2.2) ∧
    (Service.GenerateRefreshToken lib db r.UserID env.gen).1 ≠ none := by
  have hfault : env.invalidateFault = some err := by
    cases hf : env.invalidateFault with
    | none => simp [RefreshTokenRepository.Invalidate, hf] at hinv
    | some x => simpa [RefreshTokenRepository.Invalidate, hf] using hinv
  rcases generateJWT_cases lib s
      { ID := r.UserID, Name := "", Email := e, Password := "", CreatedAt := 0, UpdatedAt := 0 }
      env.jwtNow1 env.jwtNow2 env.signFault with ⟨x, _, hj⟩ | ⟨_, hj⟩
  · rw [hj] at hsign; simp at hsign
  · rcases generateRefreshToken_cases lib db r.UserID env.gen with
      ⟨x, hg, _⟩ | ⟨_, _, _, _, hg⟩
    · rw [hg] at hgen; simp at hgen
    · unfold Service.RefreshAccessToken
      rw [hget]
      simp only [hvalid, hfresh, Bool.not_true, Bool.or_false, Bool.false_eq_true, if_false]
      rw [hj]
      simp only [hg, hfault, RefreshTokenRepository.Invalidate]
      exact ⟨trivial, by simp⟩

theorem rotation_survives_failed_invalidate_witness :
    (demoService.RefreshAccessToken demoLib demoTable "RT1" "a@x.com" demoRefreshEnvStale).2.2.1
        = none ∧
    (demoService.RefreshAccessToken demoLib demoTable "RT1" "a@x.com" demoRefreshEnvStale).2.1
        = some (demoGenEnv.row demoLib 42) :=
  have h := rotation_survives_failed_invalidate demoLib demoService demoTable "RT1" "a@x.com"
    demoRefreshEnvStale demoRow demoTimeout rfl rfl (by decide) (by decide) (by decide)
    (by decide)
  ⟨by rw [h.1], by rw [h.1]; decide⟩

/-! ## Access tokens -/

/-- C8: sign/verify round trip.  For every user, `GenerateJWT` (when signing
does not fault) returns a token without error, and `ValidateJWT` under the same
secret, applied to that token at any instant before the `exp` claim of the
token, returns claims with `UserID` the id of the user, `Subject` its decimal
rendering (its sign and base 10 digits, `decimalRendering`) and `Email` the
email of the user, provided the parser reads the token back as it was
assembled. -/
theorem jwt_round_trip (lib : Lib) (s : Service) (user : User) (now1 now2 now : Time)
    (hread : lib.ReadsBack SigningMethodHS256 (s.claimsFor user.ID user.Email now1 now2)
      s.jwtSecret)
    (hbefore : now < NewNumericDate (now1 + s.tokenExpiry)) :
    (s.GenerateJWT lib user now1 now2 none).2 = none ∧
    ∃ claims : TokenClaims,
      s.ValidateJWT lib (s.GenerateJWT lib user now1 now2 none).1 now = (some claims, none) ∧
      claims.UserID = user.ID ∧ claims.Subject = decimalRendering user.ID ∧
      claims.Email = user.Email := by
  rcases generateJWT_cases lib s user now1 now2 none with ⟨e, he, _⟩ | ⟨_, hj⟩
  · cases he
  · rw [hj]
    refine ⟨rfl, s.claimsFor user.ID user.Email now1 now2, ?_, rfl,
      fmtDecimal_eq_decimalRendering user.ID, rfl⟩
    have hv := validateJWT_of_parse lib s
      (s.signed lib (s.claimsFor user.ID user.Email now1 now2))
      (s.claimsFor user.ID user.Email now1 now2) s.jwtSecret now hread rfl
    show s.ValidateJWT lib (s.signed lib (s.claimsFor user.ID user.Email now1 now2)) now = _
    rw [hv]
    simp [Service.claimsFor, hbefore]

theorem jwt_round_trip_witness :
    demoLib.ReadsBack SigningMethodHS256 (demoService.claimsFor 42 "a@x.com" 0 0) "k1" ∧
    (5 : Time) < NewNumericDate (0 + demoService.tokenExpiry) ∧
    (demoService.GenerateJWT demoLib demoUser 0 0 none).2 = none ∧
    ∃ claims : TokenClaims,
      demoService.ValidateJWT demoLib (demoService.GenerateJWT demoLib demoUser 0 0 none).1 5 =
        (some claims, none) ∧
      claims.UserID = 42 ∧ claims.Subject = "42" ∧ claims.Email = "a@x.com" := by
  obtain ⟨hgen, claims, h1, h2, h3, h4⟩ :=
    jwt_round_trip demoLib demoService demoUser 0 0 5 (by unfold Lib.ReadsBack; decide)
      (by decide)
  exact ⟨by unfold Lib.ReadsBack; decide, by decide, hgen, claims, h1, h2,
    h3.trans decimalRendering_42, h4⟩

/-- C10: an elapsed token is expired, not invalid.  For every token that
`GenerateJWT` produces, `ValidateJWT` under the same secret at any instant at
or after the `exp` claim of the token returns `ErrExpiredToken` (and no
claims), provided the parser reads the token back as it was assembled. -/
theorem jwt_elapsed_is_expired (lib : Lib) (s : Service) (user : User) (now1 now2 now : Time)
    (hread : lib.ReadsBack SigningMethodHS256 (s.claimsFor user.ID user.Email now1 now2)
      s.jwtSecret)
    (hafter : NewNumericDate (now1 + s.tokenExpiry) ≤ now) :
    s.ValidateJWT lib (s.GenerateJWT lib user now1 now2 none).1 now =
      (none, some Error.ErrExpiredToken) := by
  rcases generateJWT_cases lib s user now1 now2 none with ⟨e, he, _⟩ | ⟨_, hj⟩
  · cases he
  · rw [hj]
    have hv := validateJWT_of_parse lib s
      (s.signed lib (s.claimsFor user.ID user.Email now1 now2))
      (s.claimsFor user.ID user.Email now1 now2) s.jwtSecret now hread rfl
    show s.ValidateJWT lib (s.signed lib (s.claimsFor user.ID user.Email now1 now2)) now = _
    rw [hv]
    have hnot : ¬ now < NewNumericDate (now1 + s.tokenExpiry) := not_lt.mpr hafter
    simp [Service.claimsFor, hnot]

theorem jwt_elapsed_is_expired_witness :
    demoLib.ReadsBack SigningMethodHS256 (demoService.claimsFor 42 "a@x.com" 0 0) "k1" ∧
    NewNumericDate (0 + demoService.tokenExpiry) ≤ 900 * Second ∧
    demoService.ValidateJWT demoLib (demoService.GenerateJWT demoLib demoUser 0 0 none).1
        (900 * Second) = (none, some Error.ErrExpiredToken) :=
  ⟨by unfold Lib.ReadsBack; decide, by decide,
    jwt_elapsed_is_expired demoLib demoService demoUser 0 0 (900 * Second)
      (by unfold Lib.ReadsBack; decide) (by decide)⟩

/-! ## Lemmas on ValidateJWT -/

/-- What `ValidateJWT` has checked when it returns without error: the parser
read the string, the header names an HMAC method, the MAC of the signed text
under the secret of the service is the signature, an `exp` claim, if there is
one, lies after the clock reading and an `nbf` claim, if there is one, does
not; the claims returned are those of the token. -/
theorem validateJWT_accepts (lib : Lib) (s : Service) (t : String) (now : Time)
    (h : (s.ValidateJWT lib t now).2 = none) :
    ∃ (p : ParsedToken) (hash : HashAlg),
      lib.parseUnverified t = some p ∧ p.Method = SigningMethod.HMAC hash ∧
      lib.hmac hash s.jwtSecret p.SigningInput = p.Signature ∧
      (∀ exp, p.Claims.ExpiresAt = some exp → now < exp) ∧
      (∀ nbf, p.Claims.NotBefore = some nbf → nbf ≤ now) ∧
      s.ValidateJWT lib t now = (some p.Claims, none) := by
  unfold Service.ValidateJWT ParseWithClaims at h ⊢
  cases hp : lib.parseUnverified t with
  | none => simp [hp, errorsIs] at h
  | some p =>
    simp only [hp] at h ⊢
    cases hm : p.Method with
    | other alg => simp [hm, Service.keyFunc, errorsIs] at h
    | HMAC hash =>
      simp only [hm, Service.keyFunc, SigningMethod.Verify] at h ⊢
      by_cases hsig : lib.hmac hash s.jwtSecret p.SigningInput = p.Signature
      · have hb : (lib.hmac hash s.jwtSecret p.SigningInput == p.Signature) = true := by
          simpa using hsig
        simp only [hb, Bool.not_true, Bool.false_eq_true, if_false] at h ⊢
        cases hv : Validate p.Claims now with
        | cons e es =>
          simp only [hv] at h
          split at h <;> simp at h
        | nil =>
          simp only [hv]
          refine ⟨p, hash, rfl, hm, hsig, ?_, ?_, by simp⟩
          · intro exp hexp
            unfold Validate at hv
            simp only [hexp] at hv
            by_contra hlt
            simp [hlt] at hv
          · intro nbf hnbf
            unfold Validate at hv
            simp only [hnbf] at hv
            by_contra hlt
            have hlt2 : now < nbf := not_le.mp hlt
            simp [hlt2] at hv
      · have hb : (lib.hmac hash s.jwtSecret p.SigningInput == p.Signature) = false := by
          simpa using hsig
        simp [hb, errorsIs] at h

/-- A string whose header names no HMAC method is answered
`ErrInvalidToken`. -/
theorem validateJWT_rejects_other (lib : Lib) (s : Service) (t : String) (now : Time)
    (h : ∀ p, lib.parseUnverified t = some p → ∀ hash, p.Method ≠ SigningMethod.HMAC hash) :
    s.ValidateJWT lib t now = (none, some Error.ErrInvalidToken) := by
  unfold Service.ValidateJWT ParseWithClaims
  cases hp : lib.parseUnverified t with
  | none => simp [errorsIs]
  | some p =>
    cases hm : p.Method with
    | HMAC hash => exact absurd hm (h p hp hash)
    | other alg => simp [hm, Service.keyFunc, errorsIs]

/-! ## Algorithm and expiry checks of ValidateJWT -/

/-- C11, as stated, fails: the token `demoHS384Token` carries the header tag
HS384, which is not the HS256 that `GenerateJWT` signs with, and a signature
that is the HS384 MAC under the secret of the service; `ValidateJWT` does not
reject it but returns its claims. -/
theorem jwt_hs384_token_accepted :
    demoLibWide.parseUnverified demoHS384Token =
      some (demoParsed (SigningMethod.HMAC HashAlg.SHA384) demoClaims "k1") ∧
    SigningMethod.HMAC HashAlg.SHA384 ≠ SigningMethodHS256 ∧
    demoService.jwtSecret = "k1" ∧
    demoService.ValidateJWT demoLibWide demoHS384Token 5 = (some demoClaims, none) := by
  decide

/-- C11 (amended): `ValidateJWT` rejects with `ErrInvalidToken`, at every
instant and whatever the signature, every token whose header algorithm tag
names no method of the HMAC family (HS256, HS384, HS512), and every string that
does not parse; a token tagged with any method of the family, HS384 and HS512
as well as HS256, and signed with that method under the secret of the service
is accepted (when it is not expired and the parser reads it back). -/
theorem jwt_non_hmac_rejected (lib : Lib) (s : Service) (now : Time) :
    (∀ t : String,
      (∀ p, lib.parseUnverified t = some p → ∀ hash, p.Method ≠ SigningMethod.HMAC hash) →
      s.ValidateJWT lib t now = (none, some Error.ErrInvalidToken)) ∧
    (∀ (hash : HashAlg) (claims : TokenClaims),
      lib.ReadsBack (SigningMethod.HMAC hash) claims s.jwtSecret →
      claims.NotBefore = none → (∀ exp, claims.ExpiresAt = some exp → now < exp) →
      s.ValidateJWT lib (SignedString lib (SigningMethod.HMAC hash) claims s.jwtSecret none).1
        now = (some claims, none)) := by
  refine ⟨fun t h => validateJWT_rejects_other lib s t now h, ?_⟩
  intro hash claims hread hnbf hexp
  unfold Lib.ReadsBack at hread
  unfold Service.ValidateJWT ParseWithClaims
  rw [hread]
  simp only [Service.keyFunc, SigningMethod.Verify, SigningMethod.Sign, beq_self_eq_true,
    Bool.not_true, Bool.false_eq_true, if_false, Validate, hnbf]
  cases he : claims.ExpiresAt with
  | none => simp
  | some exp => simp [hexp exp he]

theorem jwt_non_hmac_rejected_witness :
    demoLibWide.parseUnverified demoRS256Token =
      some (demoParsed (SigningMethod.other "RS256") demoClaims "k1") ∧
    demoService.ValidateJWT demoLibWide demoRS256Token 5 =
      (none, some Error.ErrInvalidToken) :=
  ⟨by decide,
    (jwt_non_hmac_rejected demoLibWide demoService 5).1 demoRS256Token (by
      intro p hp hash hm
      have hq : demoLibWide.parseUnverified demoRS256Token =
          some (demoParsed (SigningMethod.other "RS256") demoClaims "k1") := by decide
      rw [hq] at hp
      cases hp
      cases hm)⟩

/-- C12, as stated, fails: `demoNoExpToken` is signed with HS256 under the
secret of the service and has no `exp` claim; `ValidateJWT` returns its claims
without error, here at instant 5 and a thousand days later, and the claims
contain no expires-at value. -/
theorem jwt_without_exp_accepted :
    demoService.ValidateJWT demoLibWide demoNoExpToken 5 = (some demoNoExpClaims, none) ∧
    demoService.ValidateJWT demoLibWide demoNoExpToken (1000 * 24 * Hour) =
      (some demoNoExpClaims, none) ∧
    demoNoExpClaims.ExpiresAt = none := by
  decide

/-- C12 (amended): for every token string and verification instant `now`, if
`ValidateJWT` returns claims without error, then the signature of the token is
the MAC of its signed text under the current secret of the service, for the
HMAC method that its header names, and an expires-at value, if the claims
contain one, is strictly later than `now`. -/
theorem jwt_accepted_is_signed_and_unexpired (lib : Lib) (s : Service) (t : String)
    (now : Time) (claims : TokenClaims)
    (h : s.ValidateJWT lib t now = (some claims, none)) :
    ∃ (p : ParsedToken) (hash : HashAlg),
      lib.parseUnverified t = some p ∧ p.Claims = claims ∧
      p.Method = SigningMethod.HMAC hash ∧
      p.Method.Verify lib p.SigningInput p.Signature s.jwtSecret = true ∧
      ∀ exp, claims.ExpiresAt = some exp → now < exp := by
  have herr : (s.ValidateJWT lib t now).2 = none := by rw [h]
  obtain ⟨p, hash, hp, hm, hsig, hexp, _, hres⟩ := validateJWT_accepts lib s t now herr
  rw [hres] at h
  simp only [Prod.mk.injEq, Option.some.injEq, and_true] at h
  subst h
  refine ⟨p, hash, hp, rfl, hm, ?_, hexp⟩
  rw [hm]
  simp [SigningMethod.Verify, hsig]

theorem jwt_accepted_is_signed_and_unexpired_witness :
    demoService.ValidateJWT demoLib demoAccessToken 5 = (some demoClaims, none) ∧
    ∃ (p : ParsedToken) (hash : HashAlg),
      demoLib.parseUnverified demoAccessToken = some p ∧ p.Claims = demoClaims ∧
      p.Method = SigningMethod.HMAC hash ∧
      p.Method.Verify demoLib p.SigningInput p.Signature demoService.jwtSecret = true ∧
      ∀ exp, demoClaims.ExpiresAt = some exp → (5 : Time) < exp :=
  ⟨by decide,
    jwt_accepted_is_signed_and_unexpired demoLib demoService demoAccessToken 5 demoClaims
      (by decide)⟩

/-! ## Errors of the store -/

/-- When the insert attempted by `GenerateRefreshToken` reports the error
`err`, `GenerateRefreshToken` returns `err` and leaves the table as it was. -/
theorem generateRefreshToken_create_error (lib : Lib) (db : Table) (userID : Int)
    (env : GenEnv) (err : Error) (hrand : env.randErr = none)
    (hcreate : (RefreshTokenRepository.Create db (env.entity lib userID) env.newID
      env.createFault).1 = some err) :
    Service.GenerateRefreshToken lib db userID env = (none, some err, db) := by
  unfold Service.GenerateRefreshToken
  have hent : NewRefreshToken userID (lib.base64URL env.randBytes)
      (match env.refreshExpiry with
        | some d => d
        | none => 7 * 24 * Hour) env.now1 env.now2 = env.entity lib userID := rfl
  simp only [hrand, hent]
  unfold RefreshTokenRepository.Create at hcreate ⊢
  cases hcf : env.createFault with
  | some e =>
    simp only [hcf, Option.some.injEq] at hcreate
    subst hcreate
    rfl
  | none =>
    simp only [hcf] at hcreate
    split at hcreate
    · rename_i hany
      simp only [Option.some.injEq] at hcreate
      subst hcreate
      simp only [hany, if_true]
    · simp at hcreate

/-- C13, as stated, fails: in the example table the lookup of `RT1` inside
`RefreshAccessToken` runs into the deadline, a storage error and not absence,
and `RefreshAccessToken` returns `ErrInvalidToken`, not the error of the
lookup. -/
theorem lookup_timeout_returned_as_invalid :
    RefreshTokenRepository.GetByToken demoTable "RT1" demoRefreshEnvLookupTimeout.getFault =
      (none, some demoTimeout) ∧
    demoTimeout ≠ Error.ErrNoRows ∧
    (demoService.RefreshAccessToken demoLib demoTable "RT1" "a@x.com"
      demoRefreshEnvLookupTimeout).2.2.1 = some Error.ErrInvalidToken ∧
    (demoService.RefreshAccessToken demoLib demoTable "RT1" "a@x.com"
      demoRefreshEnvLookupTimeout).2.2.1 ≠ some demoTimeout := by
  decide

/-- C13 (amended): the errors of the store calls that are returned
unchanged.  When the `Create` inside `RefreshAccessToken` (reached after a
lookup of a valid, unexpired row and a successful signing) fails with `err`,
`RefreshAccessToken` returns `err`; when the `Create` inside
`GenerateRefreshToken` fails with `err`, `GenerateRefreshToken` returns `err`;
when `InvalidateAllForUser` fails with `err`, `InvalidateAllTokensForUser`
returns `err`.  When the `GetByToken` inside `RefreshAccessToken` fails, with a
storage error or with absence, `RefreshAccessToken` returns
`ErrInvalidToken`. -/
theorem store_errors_returned (lib : Lib) (s : Service) (db : Table) :
    (∀ (T e : String) (env : RefreshEnv) (r : RefreshToken) (err : Error),
      RefreshTokenRepository.GetByToken db T env.getFault = (some r, none) →
      r.IsValid = true → r.IsExpired env.nowCheck = false →
      env.signFault = none → env.gen.randErr = none →
      (RefreshTokenRepository.Create db (env.gen.entity lib r.UserID) env.gen.newID
        env.gen.createFault).1 = some err →
      s.RefreshAccessToken lib db T e env = ("", none, some err, db)) ∧
    (∀ (userID : Int) (env : GenEnv) (err : Error), env.randErr = none →
      (RefreshTokenRepository.Create db (env.entity lib userID) env.newID
        env.createFault).1 = some err →
      Service.GenerateRefreshToken lib db userID env = (none, some err, db)) ∧
    (∀ (userID : Int) (fault : Option Error) (err : Error),
      (RefreshTokenRepository.InvalidateAllForUser db userID fault).1 = some err →
      (Service.InvalidateAllTokensForUser db userID fault).1 = some err) ∧
    (∀ (T e : String) (env : RefreshEnv) (err : Error),
      (RefreshTokenRepository.GetByToken db T env.getFault).2 = some err →
      s.RefreshAccessToken lib db T e env = ("", none, some Error.ErrInvalidToken, db)) := by
  refine ⟨?_, ?_, ?_, ?_⟩
  · intro T e env r err hget hvalid hfresh hsign hrand hcreate
    have hg := generateRefreshToken_create_error lib db r.UserID env.gen err hrand hcreate
    unfold Service.RefreshAccessToken
    rw [hget]
    simp only [hvalid, hfresh, Bool.not_true, Bool.or_false, Bool.false_eq_true, if_false]
    rcases generateJWT_cases lib s
        { ID := r.UserID, Name := "", Email := e, Password := "", CreatedAt := 0,
          UpdatedAt := 0 } env.jwtNow1 env.jwtNow2 env.signFault with ⟨x, hx, _⟩ | ⟨_, hj⟩
    · rw [hsign] at hx; cases hx
    · rw [hj]
      simp only [hg]
  · intro userID env err hrand hcreate
    exact generateRefreshToken_create_error lib db userID env err hrand hcreate
  · intro userID fault err h
    exact h
  · intro T e env err herr
    apply refresh_invalid_of_lookup
    intro r hr
    rw [hr] at herr
    cases herr

theorem store_errors_returned_witness :
    (RefreshTokenRepository.Create demoTable
        (({ demoGenEnv with createFault := some demoTimeout } : GenEnv).entity demoLib 42) 2
        (some demoTimeout)).1 = some demoTimeout ∧
    demoService.RefreshAccessToken demoLib demoTable "RT1" "a@x.com"
        { demoRefreshEnv with gen := { demoGenEnv with createFault := some demoTimeout } } =
      ("", none, some demoTimeout, demoTable) :=
  ⟨rfl,
    (store_errors_returned demoLib demoService demoTable).1 "RT1" "a@x.com"
      { demoRefreshEnv with gen := { demoGenEnv with createFault := some demoTimeout } }
      demoRow demoTimeout rfl rfl (by decide) rfl rfl rfl⟩

/-! ## Expiry and creation of a refresh token -/

/-- C14, as stated, fails: the service accepts `REFRESH_TOKEN_EXPIRY=-1h`
(`time.ParseDuration` parses it), and with it `GenerateRefreshToken` stores and
returns a refresh token whose `ExpiresAt` lies an hour before its
`CreatedAt`. -/
theorem refresh_token_negative_ttl :
    Service.GenerateRefreshToken demoLib demoTable 42 demoGenEnvNegative =
      (some (demoGenEnvNegative.row demoLib 42), none,
        demoTable ++ [demoGenEnvNegative.row demoLib 42]) ∧
    (demoGenEnvNegative.row demoLib 42).ExpiresAt =
      (demoGenEnvNegative.row demoLib 42).CreatedAt - Hour ∧
    ¬ (demoGenEnvNegative.row demoLib 42).ExpiresAt >
      (demoGenEnvNegative.row demoLib 42).CreatedAt := by
  decide

/-- C14 (amended): a `RefreshToken` built by `NewRefreshToken` satisfies
`ExpiresAt > CreatedAt` exactly when its lifetime is greater than the time
between the two clock readings of `NewRefreshToken`, and so does every refresh
token that `GenerateRefreshToken` creates, its lifetime being the refresh TTL
(the parsed `REFRESH_TOKEN_EXPIRY`, or 7 days). -/
theorem refresh_token_expiry_after_creation (lib : Lib) (db : Table) (userID : Int)
    (token : String) (expiresIn : Duration) (now1 now2 : Time) (env : GenEnv) :
    ((NewRefreshToken userID token expiresIn now1 now2).ExpiresAt >
        (NewRefreshToken userID token expiresIn now1 now2).CreatedAt ↔
      now2 - now1 < expiresIn) ∧
    (∀ rt, (Service.GenerateRefreshToken lib db userID env).1 = some rt →
      (rt.ExpiresAt > rt.CreatedAt ↔ env.now2 - env.now1 < env.ttl)) := by
  constructor
  · simp only [NewRefreshToken, gt_iff_lt]
    exact sub_lt_iff_lt_add'.symm
  · intro rt hrt
    rcases generateRefreshToken_cases lib db userID env with ⟨e, hg, _⟩ | ⟨_, _, _, _, hg⟩
    · rw [hg] at hrt; cases hrt
    · rw [hg] at hrt
      simp only [Option.some.injEq] at hrt
      subst hrt
      simp only [GenEnv.row, GenEnv.entity, NewRefreshToken, gt_iff_lt]
      exact sub_lt_iff_lt_add'.symm

/-! ## Rows over sequences of operations -/

theorem rowKept_refl (r : RefreshToken) : RowKept r r :=
  ⟨rfl, rfl, rfl, rfl, rfl, fun h => h⟩

theorem rowKept_invalidated (r : RefreshToken) (c : Bool) :
    RowKept r (if c then { r with IsValid := false } else r) := by
  cases c
  · exact rowKept_refl r
  · exact ⟨rfl, rfl, rfl, rfl, rfl, fun _ => rfl⟩

theorem rowKept_trans {r1 r2 r3 : RefreshToken} (h12 : RowKept r1 r2) (h23 : RowKept r2 r3) :
    RowKept r1 r3 := by
  obtain ⟨a1, a2, a3, a4, a5, a6⟩ := h12
  obtain ⟨b1, b2, b3, b4, b5, b6⟩ := h23
  exact ⟨b1.trans a1, b2.trans a2, b3.trans a3, b4.trans a4, b5.trans a5, fun h => b6 (a6 h)⟩

theorem tableKept_refl (db : Table) : TableKept db db :=
  fun _ r h => ⟨r, h, rowKept_refl r⟩

theorem tableKept_trans {db1 db2 db3 : Table} (h12 : TableKept db1 db2)
    (h23 : TableKept db2 db3) : TableKept db1 db3 := by
  intro i r1 h1
  obtain ⟨r2, h2, k12⟩ := h12 i r1 h1
  obtain ⟨r3, h3, k23⟩ := h23 i r2 h2
  exact ⟨r3, h3, rowKept_trans k12 k23⟩

theorem tableKept_append (db : Table) (added : Table) : TableKept db (db ++ added) := by
  intro i r h
  refine ⟨r, ?_, rowKept_refl r⟩
  have hi : i < db.length := by
    by_contra hge
    rw [List.getElem?_eq_none (not_lt.mp hge)] at h
    cases h
  rw [List.getElem?_append_left hi]
  exact h

theorem tableKept_invalidated (db : Table) (p : RefreshToken → Bool) :
    TableKept db (db.map (fun r => if p r then { r with IsValid := false } else r)) := by
  intro i r h
  refine ⟨if p r then { r with IsValid := false } else r, ?_, rowKept_invalidated r (p r)⟩
  rw [List.getElem?_map, h]
  rfl

theorem storeStep_kept {db1 db2 : Table} (hs : StoreStep db1 db2) : TableKept db1 db2 := by
  cases hs with
  | create token newID fault =>
    unfold RefreshTokenRepository.Create
    cases fault with
    | some e => exact tableKept_refl db1
    | none =>
      simp only
      split
      · exact tableKept_refl db1
      · exact tableKept_append db1 _
  | invalidate token fault =>
    unfold RefreshTokenRepository.Invalidate
    cases fault with
    | some e => exact tableKept_refl db1
    | none => exact tableKept_invalidated db1 (fun r => r.Token == token)
  | invalidateAll userID fault =>
    unfold RefreshTokenRepository.InvalidateAllForUser
    cases fault with
    | some e => exact tableKept_refl db1
    | none => exact tableKept_invalidated db1 (fun r => r.UserID == userID)

theorem later_kept {db1 db2 : Table} (hl : Later db1 db2) : TableKept db1 db2 := by
  induction hl with
  | refl => exact tableKept_refl db1
  | tail _ hs ih => exact tableKept_trans ih (storeStep_kept hs)

theorem later_trans {db1 db2 db3 : Table} (h12 : Later db1 db2) (h23 : Later db2 db3) :
    Later db1 db3 :=
  Relation.ReflTransGen.trans h12 h23

/-- Every operation is a sequence of writes of the repository. -/
theorem op_later (lib : Lib) (s : Service) (db : Table) (op : Op) :
    Later db (op.run lib s db) := by
  cases op with
  | Create token newID fault =>
    exact later_step (later_refl db) (StoreStep.create db token newID fault)
  | Invalidate token fault =>
    exact later_step (later_refl db) (StoreStep.invalidate db token fault)
  | InvalidateAllForUser userID fault =>
    exact later_step (later_refl db) (StoreStep.invalidateAll db userID fault)
  | GenerateRefreshToken userID env => exact generateRefreshToken_later lib db userID env
  | RefreshAccessToken T email env => exact refresh_later lib s db T email env
  | InvalidateAllTokensForUser userID fault => exact invalidateAll_later db userID fault

theorem runOps_later (lib : Lib) (s : Service) (db : Table) (ops : List Op) :
    Later db (runOps lib s db ops) := by
  induction ops generalizing db with
  | nil => exact later_refl db
  | cons op rest ih =>
    exact later_trans (op_later lib s db op) (ih (op.run lib s db))

/-- C15: validity is monotone and rows are never removed.  For every sequence
of operations (the three writes of the repository and `GenerateRefreshToken`,
`RefreshAccessToken`, `InvalidateAllTokensForUser`, with any arguments, clock
readings and faults) and every state on the way, each row of that state is
still there, at the same place and with the same id, user, token and
timestamps, in every later state, and a row whose `is_valid` is false in that
state has `is_valid` false in every later state. -/
theorem validity_monotone (lib : Lib) (s : Service) (db : Table) (ops1 ops2 : List Op) :
    TableKept (runOps lib s db ops1) (runOps lib s db (ops1 ++ ops2)) ∧
    (runOps lib s db ops1).length ≤ (runOps lib s db (ops1 ++ ops2)).length ∧
    ∀ (i : Nat) (r1 : RefreshToken), (runOps lib s db ops1)[i]? = some r1 →
      r1.IsValid = false →
      ∃ r2, (runOps lib s db (ops1 ++ ops2))[i]? = some r2 ∧ r2.ID = r1.ID ∧
        r2.Token = r1.Token ∧ r2.IsValid = false := by
  have hsplit : runOps lib s db (ops1 ++ ops2) = runOps lib s (runOps lib s db ops1) ops2 := by
    simp [runOps, List.foldl_append]
  have hkept : TableKept (runOps lib s db ops1) (runOps lib s db (ops1 ++ ops2)) := by
    rw [hsplit]
    exact later_kept (runOps_later lib s _ ops2)
  refine ⟨hkept, ?_, ?_⟩
  · by_contra hlt
    have hlt2 := not_le.mp hlt
    have hpos : (runOps lib s db (ops1 ++ ops2)).length < (runOps lib s db ops1).length := hlt2
    obtain ⟨r2, h2, _⟩ := hkept (runOps lib s db (ops1 ++ ops2)).length
      ((runOps lib s db ops1).get ⟨_, hpos⟩) (by
        rw [List.getElem?_eq_getElem hpos]
        rfl)
    rw [List.getElem?_eq_none (le_refl _)] at h2
    cases h2
  · intro i r1 h1 hinv
    obtain ⟨r2, h2, hid, _, htok, _, _, hval⟩ := hkept i r1 h1
    exact ⟨r2, h2, hid, htok, hval hinv⟩

/-! ## Idempotence and frame of the invalidations -/

theorem invalidated_twice (db : Table) (p : RefreshToken → Bool)
    (hp : ∀ r, p { r with IsValid := false } = p r) :
    (db.map (fun r => if p r then { r with IsValid := false } else r)).map
        (fun r => if p r then { r with IsValid := false } else r) =
      db.map (fun r => if p r then { r with IsValid := false } else r) := by
  rw [List.map_map]
  apply List.map_congr_left
  intro r _
  simp only [Function.comp]
  cases hpr : p r
  · simp [hpr]
  · simp [hpr, hp r]

theorem invalidated_none (db : Table) (p : RefreshToken → Bool) (h : ∀ r ∈ db, p r = false) :
    db.map (fun r => if p r then { r with IsValid := false } else r) = db := by
  conv_rhs => rw [← List.map_id db]
  apply List.map_congr_left
  intro r hr
  simp [h r hr]

/-- C16: the invalidations of the store are idempotent.  For every table,
`Invalidate(v)` applied after a successful `Invalidate(v)` leaves the table as
the first left it, and so does `InvalidateAllForUser(u)` after a successful
`InvalidateAllForUser(u)`; a call that the database does not fault returns no
error whatever the table holds, and when `v` is absent, when every row of `v`
is already invalid, or when `u` owns no row, it leaves the table as it was. -/
theorem invalidation_idempotent (db : Table) (v : String) (u : Int) (fault : Option Error) :
    (RefreshTokenRepository.Invalidate (RefreshTokenRepository.Invalidate db v none).2 v
        fault).2 = (RefreshTokenRepository.Invalidate db v none).2 ∧
    (RefreshTokenRepository.InvalidateAllForUser
        (RefreshTokenRepository.InvalidateAllForUser db u none).2 u fault).2 =
      (RefreshTokenRepository.InvalidateAllForUser db u none).2 ∧
    (RefreshTokenRepository.Invalidate db v none).1 = none ∧
    (RefreshTokenRepository.InvalidateAllForUser db u none).1 = none ∧
    ((∀ r ∈ db, r.Token ≠ v) → RefreshTokenRepository.Invalidate db v none = (none, db)) ∧
    ((∀ r ∈ db, r.Token = v → r.IsValid = false) →
      RefreshTokenRepository.Invalidate db v none = (none, db)) ∧
    ((∀ r ∈ db, r.UserID ≠ u) →
      RefreshTokenRepository.InvalidateAllForUser db u none = (none, db)) := by
  refine ⟨?_, ?_, rfl, rfl, ?_, ?_, ?_⟩
  · cases fault with
    | some e => rfl
    | none =>
      simp only [RefreshTokenRepository.Invalidate]
      exact invalidated_twice db (fun r => r.Token == v) (fun _ => rfl)
  · cases fault with
    | some e => rfl
    | none =>
      simp only [RefreshTokenRepository.InvalidateAllForUser]
      exact invalidated_twice db (fun r => r.UserID == u) (fun _ => rfl)
  · intro h
    simp only [RefreshTokenRepository.Invalidate]
    rw [invalidated_none db (fun r => r.Token == v) (fun r hr => by simpa using h r hr)]
  · intro h
    simp only [RefreshTokenRepository.Invalidate, Prod.mk.injEq, true_and]
    conv_rhs => rw [← List.map_id db]
    apply List.map_congr_left
    intro r hr
    by_cases hrt : r.Token = v
    · have hv := h r hr hrt
      have hsame : ({ r with IsValid := false } : RefreshToken) = r := by
        cases r
        simp only at hv
        subst hv
        rfl
      have hb : (r.Token == v) = true := by simpa using hrt
      simp only [hb, if_true, id, hsame]
    · simp [hrt]
  · intro h
    simp only [RefreshTokenRepository.InvalidateAllForUser]
    rw [invalidated_none db (fun r => r.UserID == u) (fun r hr => by simpa using h r hr)]

theorem invalidated_token (r : RefreshToken) (c : Bool) :
    (if c then { r with IsValid := false } else r).Token = r.Token := by
  cases c <;> rfl

theorem any_token_invalidated (db : Table) (p : RefreshToken → Bool) (x : String) :
    (db.map (fun r => if p r then { r with IsValid := false } else r)).any
        (fun r => r.Token == x) = db.any (fun r => r.Token == x) := by
  rw [List.any_map]
  congr 1
  funext r
  simp only [Function.comp, invalidated_token]

theorem find_token_invalidated (db : Table) (p : RefreshToken → Bool) (T : String) :
    (db.map (fun r => if p r then { r with IsValid := false } else r)).find?
        (fun r => r.Token == T) =
      (db.find? (fun r => r.Token == T)).map
        (fun r => if p r then { r with IsValid := false } else r) := by
  rw [List.find?_map]
  congr 2
  funext r
  exact congrArg (fun t => t == T) (invalidated_token r (p r))

/-- The values that `GenerateRefreshToken` returns depend on the table only
through the set of tokens it holds. -/
theorem generateRefreshToken_congr (lib : Lib) (db db' : Table) (userID : Int) (env : GenEnv)
    (hany : ∀ x, db'.any (fun r => r.Token == x) = db.any (fun r => r.Token == x)) :
    (Service.GenerateRefreshToken lib db' userID env).1 =
      (Service.GenerateRefreshToken lib db userID env).1 ∧
    (Service.GenerateRefreshToken lib db' userID env).2.1 =
      (Service.GenerateRefreshToken lib db userID env).2.1 := by
  rcases generateRefreshToken_cases lib db userID env with
    ⟨e, hg, hwhy⟩ | ⟨hre, hcf, hno, _, hg⟩
  · rcases hwhy with hfail | hrand
    · cases hre : env.randErr with
      | some e2 =>
        simp [Service.GenerateRefreshToken, hre]
      | none =>
        have hfail' : env.CreateFails lib db' userID := by
          rw [createFails_iff] at hfail ⊢
          rw [hany]
          exact hfail
        obtain ⟨err, herr⟩ := Option.ne_none_iff_exists'.mp hfail
        have herr' : (RefreshTokenRepository.Create db' (env.entity lib userID) env.newID
            env.createFault).1 = some err := by
          unfold RefreshTokenRepository.Create at herr ⊢
          cases hcf : env.createFault with
          | some e3 => simpa [hcf] using herr
          | none =>
            simp only [hcf] at herr ⊢
            have h1 := hany (env.entity lib userID).Token
            simp only [h1]
            split at herr
            · rename_i hc
              simp only [hc, if_true]
              exact herr
            · simp at herr
        rw [generateRefreshToken_create_error lib db userID env err hre herr,
          generateRefreshToken_create_error lib db' userID env err hre herr']
        exact ⟨rfl, rfl⟩
    · simp [Service.GenerateRefreshToken, hrand]
  · rcases generateRefreshToken_cases lib db' userID env with
      ⟨e, _, hwhy⟩ | ⟨_, _, _, _, hg'⟩
    · rcases hwhy with hfail | hrand
      · rw [createFails_iff, hany] at hfail
        simp [hcf, hno] at hfail
      · rw [hre] at hrand; cases hrand
    · rw [hg, hg']
      exact ⟨rfl, rfl⟩

/-- The values that `RefreshAccessToken` returns depend on the table only
through the row that the lookup finds and the set of tokens the table
holds. -/
theorem refresh_congr (lib : Lib) (s : Service) (db db' : Table) (T email : String)
    (env : RefreshEnv)
    (hget : RefreshTokenRepository.GetByToken db' T env.getFault =
      RefreshTokenRepository.GetByToken db T env.getFault)
    (hany : ∀ x, db'.any (fun r => r.Token == x) = db.any (fun r => r.Token == x)) :
    (s.RefreshAccessToken lib db' T email env).1 = (s.RefreshAccessToken lib db T email env).1 ∧
    (s.RefreshAccessToken lib db' T email env).2.1 =
      (s.RefreshAccessToken lib db T email env).2.1 ∧
    (s.RefreshAccessToken lib db' T email env).2.2.1 =
      (s.RefreshAccessToken lib db T email env).2.2.1 := by
  unfold Service.RefreshAccessToken
  rw [hget]
  rcases getByToken_cases db T env.getFault with ⟨e, he⟩ | ⟨r, hr⟩
  · rw [he]
    exact ⟨rfl, rfl, rfl⟩
  · rw [hr]
    simp only
    split
    · exact ⟨rfl, rfl, rfl⟩
    · rcases generateJWT_cases lib s
          { ID := r.UserID, Name := "", Email := email, Password := "", CreatedAt := 0,
            UpdatedAt := 0 } env.jwtNow1 env.jwtNow2 env.signFault with ⟨e, _, hj⟩ | ⟨_, hj⟩
      · rw [hj]
        exact ⟨rfl, rfl, rfl⟩
      · rw [hj]
        obtain ⟨h1, h2⟩ := generateRefreshToken_congr lib db db' r.UserID env.gen hany
        simp only at h1 h2 ⊢
        revert h1 h2
        rcases hG : Service.GenerateRefreshToken lib db r.UserID env.gen with ⟨a, b, c⟩
        rcases hG' : Service.GenerateRefreshToken lib db' r.UserID env.gen with ⟨a', b', c'⟩
        intro h1 h2
        simp only at h1 h2
        subst h1 h2
        cases b' <;> exact ⟨rfl, rfl, rfl⟩

theorem invalidated_frame (db : Table) (p : RefreshToken → Bool) (i : Nat) (r : RefreshToken)
    (h : db[i]? = some r) :
    ∃ r2, (db.map (fun x => if p x then { x with IsValid := false } else x))[i]? = some r2 ∧
      RowKept r r2 ∧ (p r = false → r2 = r) := by
  refine ⟨if p r then { r with IsValid := false } else r, ?_, rowKept_invalidated r (p r), ?_⟩
  · rw [List.getElem?_map, h]
    rfl
  · intro hp
    simp [hp]

/-- C18: revocation is confined to its target.  `InvalidateAllForUser(u)`
keeps every row in its place, changes no column other than `is_valid` and
leaves every row whose `user_id` is not `u` as it was; `Invalidate(v)` does the
same for the rows whose token is not `v`; neither adds nor removes a row.  So,
for a token whose stored row belongs to a user other than `u`,
`RefreshAccessToken` returns the same access token, refresh token and error
after `InvalidateAllForUser(u)` as before it: revoking the sessions of `u` does
not make it fail. -/
theorem revocation_confined (lib : Lib) (s : Service) (db : Table) (u : Int) (v : String)
    (fault : Option Error) :
    (∀ (i : Nat) (r : RefreshToken), db[i]? = some r →
      ∃ r2, (RefreshTokenRepository.InvalidateAllForUser db u fault).2[i]? = some r2 ∧
        RowKept r r2 ∧ (r.UserID ≠ u → r2 = r)) ∧
    (RefreshTokenRepository.InvalidateAllForUser db u fault).2.length = db.length ∧
    (∀ (i : Nat) (r : RefreshToken), db[i]? = some r →
      ∃ r2, (RefreshTokenRepository.Invalidate db v fault).2[i]? = some r2 ∧
        RowKept r r2 ∧ (r.Token ≠ v → r2 = r)) ∧
    (RefreshTokenRepository.Invalidate db v fault).2.length = db.length ∧
    (∀ (T e : String) (env : RefreshEnv) (r : RefreshToken),
      RefreshTokenRepository.GetByToken db T none = (some r, none) → r.UserID ≠ u →
      (s.RefreshAccessToken lib (RefreshTokenRepository.InvalidateAllForUser db u fault).2 T e
          env).1 = (s.RefreshAccessToken lib db T e env).1 ∧
      (s.RefreshAccessToken lib (RefreshTokenRepository.InvalidateAllForUser db u fault).2 T e
          env).2.1 = (s.RefreshAccessToken lib db T e env).2.1 ∧
      (s.RefreshAccessToken lib (RefreshTokenRepository.InvalidateAllForUser db u fault).2 T e
          env).2.2.1 = (s.RefreshAccessToken lib db T e env).2.2.1) := by
  refine ⟨?_, ?_, ?_, ?_, ?_⟩
  · intro i r h
    cases fault with
    | some e => exact ⟨r, h, rowKept_refl r, fun _ => rfl⟩
    | none =>
      obtain ⟨r2, h2, hk, hp⟩ := invalidated_frame db (fun x => x.UserID == u) i r h
      exact ⟨r2, h2, hk, fun hne => hp (by simpa using hne)⟩
  · cases fault <;> simp [RefreshTokenRepository.InvalidateAllForUser]
  · intro i r h
    cases fault with
    | some e => exact ⟨r, h, rowKept_refl r, fun _ => rfl⟩
    | none =>
      obtain ⟨r2, h2, hk, hp⟩ := invalidated_frame db (fun x => x.Token == v) i r h
      exact ⟨r2, h2, hk, fun hne => hp (by simpa using hne)⟩
  · cases fault <;> simp [RefreshTokenRepository.Invalidate]
  · intro T e env r hget hne
    cases fault with
    | some err => exact ⟨rfl, rfl, rfl⟩
    | none =>
      apply refresh_congr
      · unfold RefreshTokenRepository.GetByToken
        cases env.getFault with
        | some x => rfl
        | none =>
          have hfind := (getByToken_found hget).2.1
          simp only [RefreshTokenRepository.InvalidateAllForUser]
          rw [find_token_invalidated db (fun x => x.UserID == u) T, hfind]
          have hu : (r.UserID == u) = false := by simpa using hne
          simp only [hu, Option.map_some', Bool.false_eq_true, if_false]
      · intro x
        exact any_token_invalidated db (fun r => r.UserID == u) x

theorem revocation_confined_witness :
    RefreshTokenRepository.GetByToken demoTableAB "RTB" none = (some demoRowB, none) ∧
    demoRowB.UserID ≠ 42 ∧
    (demoService.RefreshAccessToken demoLib demoTableAB "RTB" "b@x.com" demoRefreshEnv).2.2.1
      = none ∧
    (demoService.RefreshAccessToken demoLib
      (RefreshTokenRepository.InvalidateAllForUser demoTableAB 42 none).2 "RTB" "b@x.com"
      demoRefreshEnv).2.2.1 = none :=
  have h := (revocation_confined demoLib demoService demoTableAB 42 "RT1" none).2.2.2.2
    "RTB" "b@x.com" demoRefreshEnv demoRowB (by decide) (by decide)
  ⟨by decide, by decide, by decide, by rw [h.2.2]; decide⟩

/-! ## Two rotations of one token in parallel -/

/-- The three steps of a call, run without interruption, are
`RefreshAccessToken`. -/
theorem call_runs_as_refresh (lib : Lib) (s : Service) (db : Table) (T e : String)
    (env : RefreshEnv) (b : Call) :
    interleave lib s [true, true, true] (Call.new T e env, b, db) =
      ({ refreshTokenStr := T, userEmail := e, env := env,
         progress := Progress.returned (s.RefreshAccessToken lib db T e env).1
           (s.RefreshAccessToken lib db T e env).2.1
           (s.RefreshAccessToken lib db T e env).2.2.1 },
       b, (s.RefreshAccessToken lib db T e env).2.2.2) := by
  unfold Service.RefreshAccessToken
  simp only [interleave, Call.new]
  rcases getByToken_cases db T env.getFault with ⟨x, hx⟩ | ⟨r, hr⟩
  · simp [Call.step, hx]
  · cases hbad : (!r.IsValid || r.IsExpired env.nowCheck)
    · rcases generateJWT_cases lib s
          { ID := r.UserID, Name := "", Email := e, Password := "", CreatedAt := 0,
            UpdatedAt := 0 } env.jwtNow1 env.jwtNow2 env.signFault with ⟨x, _, hj⟩ | ⟨_, hj⟩
      · simp [Call.step, hr, hbad, hj]
      · rcases hG : Service.GenerateRefreshToken lib db r.UserID env.gen with ⟨a1, a2, a3⟩
        cases a2 with
        | some err => simp [Call.step, hr, hbad, hj, hG]
        | none => simp [Call.step, hr, hbad, hj, hG]
    · simp [Call.step, hr, hbad]

theorem interleave_append (lib : Lib) (s : Service) (sch1 sch2 : List Bool)
    (state : Call × Call × Table) :
    interleave lib s (sch1 ++ sch2) state = interleave lib s sch2 (interleave lib s sch1 state) := by
  induction sch1 generalizing state with
  | nil => rfl
  | cons x rest ih =>
    obtain ⟨a, b, db⟩ := state
    cases x
    · simp only [List.cons_append, interleave]
      exact ih _
    · simp only [List.cons_append, interleave]
      exact ih _

theorem interleave_swap (lib : Lib) (s : Service) (sch : List Bool) (a b : Call) (db : Table) :
    interleave lib s (sch.map not) (b, a, db) =
      ((interleave lib s sch (a, b, db)).2.1, (interleave lib s sch (a, b, db)).1,
        (interleave lib s sch (a, b, db)).2.2) := by
  induction sch generalizing a b db with
  | nil => rfl
  | cons x rest ih =>
    cases x <;> simp only [List.map_cons, Bool.not_true, Bool.not_false, interleave, ih]

/-- After a successful rotation whose final `Invalidate` did not fail, the old
token value is spent. -/
theorem spent_after_rotation (lib : Lib) (s : Service) (db : Table) (T e : String)
    (env : RefreshEnv) (hok : (s.RefreshAccessToken lib db T e env).2.2.1 = none)
    (hinv : env.invalidateFault = none) :
    Spent T (s.RefreshAccessToken lib db T e env).2.2.2 := by
  obtain ⟨r, hget, _, _, _, _, _, _, hres⟩ := refresh_success lib s db T e env hok
  obtain ⟨_, _, hmem, htok⟩ := getByToken_found hget
  rw [hres, hinv]
  refine ⟨⟨{ r with IsValid := false }, ?_, htok⟩, invalidate_rows _ T⟩
  simp only [RefreshTokenRepository.Invalidate, List.mem_map]
  exact ⟨r, List.mem_append_left _ hmem, by simp [htok]⟩

/-- A call that starts on a table in which its token is spent returns
`ErrInvalidToken` at its first step and leaves the table alone. -/
theorem step_start_spent (lib : Lib) (s : Service) (c : Call) (db : Table)
    (hstart : c.progress = Progress.start)
    (hdb : ∀ r ∈ db, r.Token = c.refreshTokenStr → r.IsValid = false) :
    c.step lib s db =
      ({ c with progress := Progress.returned "" none (some Error.ErrInvalidToken) }, db) := by
  unfold Call.step
  rw [hstart]
  rcases getByToken_cases db c.refreshTokenStr c.env.getFault with ⟨x, hx⟩ | ⟨r, hr⟩
  · simp [hx]
  · obtain ⟨_, _, hmem, htok⟩ := getByToken_found hr
    have hv := hdb r hmem htok
    simp [hr, hv]

theorem step_returned (lib : Lib) (s : Service) (c : Call) (db : Table) (x : String)
    (y : Option RefreshToken) (z : Option Error) (h : c.progress = Progress.returned x y z) :
    c.step lib s db = (c, db) := by
  unfold Call.step
  rw [h]

/-- Once the first call has returned and the token is spent, whatever is
scheduled afterwards leaves the first call and the table as they are, and the
second call, if it had not started, fails with `ErrInvalidToken` as soon as it
is scheduled. -/
theorem interleave_after_spent (lib : Lib) (s : Service) (rest : List Bool) (a b : Call)
    (db : Table) (x : String) (y : Option RefreshToken) (z : Option Error)
    (ha : a.progress = Progress.returned x y z)
    (hdb : ∀ r ∈ db, r.Token = b.refreshTokenStr → r.IsValid = false)
    (hb : b.progress = Progress.start ∨
      b.progress = Progress.returned "" none (some Error.ErrInvalidToken)) :
    (interleave lib s rest (a, b, db)).1 = a ∧
    ((interleave lib s rest (a, b, db)).2.1.progress = Progress.start ∨
      (interleave lib s rest (a, b, db)).2.1.progress =
        Progress.returned "" none (some Error.ErrInvalidToken)) ∧
    (false ∈ rest ∨ b.progress ≠ Progress.start →
      (interleave lib s rest (a, b, db)).2.1.progress =
        Progress.returned "" none (some Error.ErrInvalidToken)) := by
  induction rest generalizing b with
  | nil =>
    refine ⟨rfl, hb, ?_⟩
    intro h
    rcases h with h | h
    · cases h
    · rcases hb with hb | hb
      · exact absurd hb h
      · exact hb
  | cons t rest ih =>
    cases t with
    | true =>
      simp only [interleave, step_returned lib s a db x y z ha]
      obtain ⟨h1, h2, h3⟩ := ih b hdb hb
      refine ⟨h1, h2, ?_⟩
      intro h
      apply h3
      rcases h with h | h
      · left
        simpa using h
      · right
        exact h
    | false =>
      have hstep : b.step lib s db =
          ({ b with progress := Progress.returned "" none (some Error.ErrInvalidToken) }, db) := by
        rcases hb with hb | hb
        · exact step_start_spent lib s b db hb hdb
        · rw [step_returned lib s b db _ _ _ hb]
          cases b
          simp only at hb
          subst hb
          rfl
      simp only [interleave, hstep]
      obtain ⟨h1, h2, h3⟩ := ih
        { b with progress := Progress.returned "" none (some Error.ErrInvalidToken) } hdb
        (Or.inr rfl)
      exact ⟨h1, h2, fun _ => h3 (Or.inr (by simp))⟩

/-- A call that has returned stays as it is under every schedule. -/
theorem interleave_first_returned (lib : Lib) (s : Service) (rest : List Bool) (a b : Call)
    (db : Table) (x : String) (y : Option RefreshToken) (z : Option Error)
    (ha : a.progress = Progress.returned x y z) :
    (interleave lib s rest (a, b, db)).1 = a := by
  induction rest generalizing b db with
  | nil => rfl
  | cons t rest ih =>
    cases t with
    | true =>
      simp only [interleave, step_returned lib s a db x y z ha]
      exact ih b db
    | false =>
      simp only [interleave]
      exact ih _ _

/-- For two calls on the same token, when the first has run to its end with
success and an `Invalidate` that did not fail before the second is scheduled,
the second does not succeed, and once it is scheduled it has returned
`ErrInvalidToken`. -/
theorem race_first_then_second (lib : Lib) (s : Service) (db : Table) (T ea eb : String)
    (enva envb : RefreshEnv) (rest : List Bool) (hinv : enva.invalidateFault = none)
    (hok : (interleave lib s (true :: true :: true :: rest)
      (Call.new T ea enva, Call.new T eb envb, db)).1.Succeeded) :
    ¬ (interleave lib s (true :: true :: true :: rest)
      (Call.new T ea enva, Call.new T eb envb, db)).2.1.Succeeded ∧
    (false ∈ rest →
      (interleave lib s (true :: true :: true :: rest)
        (Call.new T ea enva, Call.new T eb envb, db)).2.1.progress =
          Progress.returned "" none (some Error.ErrInvalidToken)) := by
  have hsplit : interleave lib s (true :: true :: true :: rest)
      (Call.new T ea enva, Call.new T eb envb, db) =
      interleave lib s rest (interleave lib s [true, true, true]
        (Call.new T ea enva, Call.new T eb envb, db)) :=
    interleave_append lib s [true, true, true] rest _
  rw [hsplit, call_runs_as_refresh] at hok ⊢
  have herr : (s.RefreshAccessToken lib db T ea enva).2.2.1 = none := by
    rw [interleave_first_returned lib s rest _ _ _ _ _ _ rfl] at hok
    obtain ⟨access, refresh, hp⟩ := hok
    simp only [Progress.returned.injEq] at hp
    exact hp.2.2
  obtain ⟨_, h2, h3⟩ := interleave_after_spent lib s rest
    { refreshTokenStr := T, userEmail := ea, env := enva,
      progress := Progress.returned (s.RefreshAccessToken lib db T ea enva).1
        (s.RefreshAccessToken lib db T ea enva).2.1
        (s.RefreshAccessToken lib db T ea enva).2.2.1 }
    (Call.new T eb envb) (s.RefreshAccessToken lib db T ea enva).2.2.2 _ _ _ rfl
    (spent_after_rotation lib s db T ea enva herr hinv).2 (Or.inl rfl)
  refine ⟨?_, fun hmem => h3 (Or.inl hmem)⟩
  rintro ⟨access, refresh, hp⟩
  rcases h2 with h2 | h2
  · rw [h2] at hp; cases hp
  · rw [h2] at hp; cases hp

theorem race_second_then_first (lib : Lib) (s : Service) (db : Table) (T ea eb : String)
    (enva envb : RefreshEnv) (rest : List Bool) (hinv : envb.invalidateFault = none)
    (hok : (interleave lib s (false :: false :: false :: rest)
      (Call.new T ea enva, Call.new T eb envb, db)).2.1.Succeeded) :
    ¬ (interleave lib s (false :: false :: false :: rest)
      (Call.new T ea enva, Call.new T eb envb, db)).1.Succeeded ∧
    (true ∈ rest →
      (interleave lib s (false :: false :: false :: rest)
        (Call.new T ea enva, Call.new T eb envb, db)).1.progress =
          Progress.returned "" none (some Error.ErrInvalidToken)) := by
  have hsch : false :: false :: false :: rest =
      (true :: true :: true :: rest.map not).map not := by
    have hnn : (not ∘ not) = (id : Bool → Bool) := by
      funext b
      cases b <;> rfl
    simp [List.map_map, hnn]
  have hswap := interleave_swap lib s (true :: true :: true :: rest.map not)
    (Call.new T eb envb) (Call.new T ea enva) db
  rw [← hsch] at hswap
  rw [hswap] at hok ⊢
  obtain ⟨h1, h2⟩ := race_first_then_second lib s db T eb ea envb enva (rest.map not) hinv hok
  refine ⟨h1, fun hmem => h2 ?_⟩
  simp only [List.mem_map]
  exact ⟨true, hmem, rfl⟩

/-- C17, as stated, fails: two calls of `RefreshAccessToken` on the valid,
unexpired token `RT1`, interleaved so that both lookups come before both
invalidations, both return without error, each with its own access token and
its own new refresh token, and both new refresh tokens are valid rows of the
table afterwards. -/
theorem concurrent_rotations_both_succeed :
    RefreshTokenRepository.GetByToken demoTable "RT1" none = (some demoRow, none) ∧
    demoRow.IsValid = true ∧ demoRow.IsExpired 20 = false ∧
    demoRace.1.progress =
      Progress.returned (demoService.signed demoLib (demoService.claimsFor 42 "a@x.com" 10 10))
        (some (demoGenEnv.row demoLib 42)) none ∧
    demoRace.2.1.progress =
      Progress.returned (demoService.signed demoLib (demoService.claimsFor 42 "a@x.com" 20 20))
        (some (demoRefreshEnvLater.gen.row demoLib 42)) none ∧
    demoGenEnv.row demoLib 42 ∈ demoRace.2.2 ∧
    demoRefreshEnvLater.gen.row demoLib 42 ∈ demoRace.2.2 ∧
    (demoGenEnv.row demoLib 42).IsValid = true ∧
    (demoRefreshEnvLater.gen.row demoLib 42).IsValid = true ∧
    (demoGenEnv.row demoLib 42).Token ≠ (demoRefreshEnvLater.gen.row demoLib 42).Token := by
  decide

/-- C17 (amended): for two concurrent calls of `RefreshAccessToken` presented
with the same refresh token, under every interleaving of their store steps in
which one call has run to its end, with an `Invalidate` that did not fail,
before the lookup of the other, at most one call succeeds: if the call that
ran first succeeded, the other does not, and once it is scheduled it has
failed with `ErrInvalidToken`. -/
theorem rotation_race_without_overlap (lib : Lib) (s : Service) (db : Table)
    (T ea eb : String) (enva envb : RefreshEnv) (rest : List Bool) :
    (enva.invalidateFault = none →
      (interleave lib s (true :: true :: true :: rest)
        (Call.new T ea enva, Call.new T eb envb, db)).1.Succeeded →
      ¬ (interleave lib s (true :: true :: true :: rest)
        (Call.new T ea enva, Call.new T eb envb, db)).2.1.Succeeded ∧
      (false ∈ rest →
        (interleave lib s (true :: true :: true :: rest)
          (Call.new T ea enva, Call.new T eb envb, db)).2.1.progress =
            Progress.returned "" none (some Error.ErrInvalidToken))) ∧
    (envb.invalidateFault = none →
      (interleave lib s (false :: false :: false :: rest)
        (Call.new T ea enva, Call.new T eb envb, db)).2.1.Succeeded →
      ¬ (interleave lib s (false :: false :: false :: rest)
        (Call.new T ea enva, Call.new T eb envb, db)).1.Succeeded ∧
      (true ∈ rest →
        (interleave lib s (false :: false :: false :: rest)
          (Call.new T ea enva, Call.new T eb envb, db)).1.progress =
            Progress.returned "" none (some Error.ErrInvalidToken))) :=
  ⟨fun hinv hok => race_first_then_second lib s db T ea eb enva envb rest hinv hok,
    fun hinv hok => race_second_then_first lib s db T ea eb enva envb rest hinv hok⟩

theorem rotation_race_without_overlap_witness :
    demoNoRace.1.progress =
      Progress.returned (demoService.signed demoLib (demoService.claimsFor 42 "a@x.com" 10 10))
        (some (demoGenEnv.row demoLib 42)) none ∧
    demoNoRace.2.1.progress = Progress.returned "" none (some Error.ErrInvalidToken) :=
  ⟨by decide,
    ((rotation_race_without_overlap demoLib demoService demoTable "RT1" "a@x.com" "a@x.com"
      demoRefreshEnv demoRefreshEnvLater [false, false, false]).1 rfl
      ⟨demoService.signed demoLib (demoService.claimsFor 42 "a@x.com" 10 10),
        some (demoGenEnv.row demoLib 42), by decide⟩).2 (by decide)⟩

/-! ## The RefreshToken handler -/

/-- The email hint when the header token validates with a non-empty email
claim. -/
theorem emailHint_of_valid (lib : Lib) (s : Service) (users : Users) (db : Table) (r : Request)
    (T : String) (env : RefreshHandlerEnv) (claims : TokenClaims)
    (hheader : bearerToken r.Authorization ≠ "")
    (hval : s.ValidateJWT lib (bearerToken r.Authorization) env.nowValidate =
      (some claims, none))
    (hemail : claims.Email ≠ "") :
    AuthHandler.emailHint lib s users db r T env = claims.Email := by
  unfold AuthHandler.emailHint
  simp [hheader, hval, hemail]

/-- C19, as stated, fails in its first part: the header of
`demoNoEmailRequest` holds an access token that validates and whose email
claim is empty, and the email hint that the handler passes to
`RefreshAccessToken` is not that claim but the email of the user who owns the
refresh token of the body. -/
theorem refresh_hint_not_the_email_claim :
    demoService.ValidateJWT demoLibWide (bearerToken demoNoEmailRequest.Authorization) 10 =
      (some demoNoEmailClaims, none) ∧
    demoNoEmailClaims.Email = "" ∧
    AuthHandler.emailHint demoLibWide demoService demoUsers demoTableAB demoNoEmailRequest "RTB"
      demoRefreshHandlerEnv = "b@x.com" := by
  decide

/-- C19 (amended): in the `RefreshToken` handler, when the `Authorization`
header holds an access token that validates and whose email claim is not
empty, the email hint passed to `RefreshAccessToken` is that email claim,
whatever refresh token the body carries, and nothing compares the user of the
access token with the owner of the refresh token: whenever the rotation of the
body refresh token succeeds, the handler answers 200 with an access token that
is the signed claims of the user id of the refresh token's owner and the email
of the access token, and with a refresh token of that owner. -/
theorem refresh_handler_mixes_identities (lib : Lib) (s : Service) (users : Users)
    (db : Table) (r : Request) (env : RefreshHandlerEnv) (claims : TokenClaims)
    (hheader : bearerToken r.Authorization ≠ "")
    (hval : s.ValidateJWT lib (bearerToken r.Authorization) env.nowValidate =
      (some claims, none))
    (hemail : claims.Email ≠ "") :
    (∀ T, AuthHandler.emailHint lib s users db r T env = claims.Email) ∧
    (∀ (req : RefreshTokenRequest) (row : RefreshToken),
      r.refreshBody = some req → req.RefreshToken ≠ "" →
      RefreshTokenRepository.GetByToken db req.RefreshToken none = (some row, none) →
      (s.RefreshAccessToken lib db req.RefreshToken claims.Email env.refresh).2.2.1 = none →
      ∃ rt : RefreshToken, rt.UserID = row.UserID ∧
        (AuthHandler.RefreshToken lib s users db r env).1 =
          { status := 200,
            body := Body.json (s.authResponse
              (s.signed lib (s.claimsFor row.UserID claims.Email env.refresh.jwtNow1
                env.refresh.jwtNow2)) rt) }) := by
  have hhint := fun T => emailHint_of_valid lib s users db r T env claims hheader hval hemail
  refine ⟨hhint, ?_⟩
  intro req row hbody hT hrow hok
  obtain ⟨r', hget, _, _, _, _, _, _, hres⟩ :=
    refresh_success lib s db req.RefreshToken claims.Email env.refresh hok
  have hfind := (getByToken_found hrow).2.1
  rw [(getByToken_found hget).2.1] at hfind
  cases hfind
  refine ⟨env.refresh.gen.row lib row.UserID, rfl, ?_⟩
  unfold AuthHandler.RefreshToken
  simp only [hbody, hhint req.RefreshToken]
  have hTb : (req.RefreshToken == "") = false := by simpa using hT
  simp only [hTb, Bool.false_eq_true, if_false]
  rw [hres]

theorem refresh_handler_mixes_identities_witness :
    demoClaims.UserID = 42 ∧ demoRowB.UserID = 7 ∧ demoClaims.Email = "a@x.com" ∧
    ∃ rt : RefreshToken, rt.UserID = 7 ∧
      (AuthHandler.RefreshToken demoLib demoService demoUsers demoTableAB demoCrossRequest
        demoRefreshHandlerEnv).1 =
        { status := 200,
          body := Body.json (demoService.authResponse
            (demoService.signed demoLib (demoService.claimsFor 7 "a@x.com" 10 10)) rt) } :=
  ⟨rfl, rfl, rfl,
    (refresh_handler_mixes_identities demoLib demoService demoUsers demoTableAB demoCrossRequest
      demoRefreshHandlerEnv demoClaims (by decide) (by decide) (by decide)).2
      { RefreshToken := "RTB" } demoRowB rfl (by decide) (by decide) (by decide)⟩

/-! ## The logout route -/

theorem splitOnSpace_ne_nil (l : List Char) : splitOnSpace l ≠ [] := by
  cases l with
  | nil => simp [splitOnSpace]
  | cons c cs =>
    unfold splitOnSpace
    split
    · simp
    · split <;> simp

/-- A text that splits into one part has no space: the part is the text. -/
theorem splitOnSpace_single (l part : List Char) (h : splitOnSpace l = [part]) : part = l := by
  induction l generalizing part with
  | nil =>
    simp only [splitOnSpace, List.cons.injEq, and_true] at h
    exact h.symm
  | cons c cs ih =>
    unfold splitOnSpace at h
    split at h
    · simp only [List.cons.injEq] at h
      exact absurd h.2 (splitOnSpace_ne_nil cs)
    · split at h
      · rename_i hnil
        exact absurd hnil (splitOnSpace_ne_nil cs)
      · rename_i q qs hq
        simp only [List.cons.injEq] at h
        obtain ⟨h1, h2⟩ := h
        subst h2
        rw [← h1, ih q hq]

theorem splitOnSpace_after (pre rest : List Char) (hpre : ∀ c ∈ pre, c ≠ ' ') :
    splitOnSpace (pre ++ ' ' :: rest) = pre :: splitOnSpace rest := by
  induction pre with
  | nil =>
    show splitOnSpace (' ' :: rest) = [] :: splitOnSpace rest
    rw [splitOnSpace]
    simp
  | cons c pre ih =>
    have hc : c ≠ ' ' := hpre c (List.mem_cons_self c pre)
    have hrest := ih (fun x hx => hpre x (List.mem_cons_of_mem c hx))
    show splitOnSpace (c :: (pre ++ ' ' :: rest)) = (c :: pre) :: splitOnSpace rest
    rw [splitOnSpace, hrest]
    simp [hc]

/-- The token that `Logout` reads from a header is the one that `RequireAuth`
read from it. -/
theorem logoutToken_eq_token (r : Request) (t1 t2 : String)
    (h1 : AuthMiddleware.token r = some t1) (h2 : AuthHandler.logoutToken r = some t2) :
    t2 = t1 := by
  unfold AuthHandler.logoutToken at h2
  split at h2
  · rename_i c rest hdata
    simp only [Option.some.injEq] at h2
    unfold AuthMiddleware.token at h1
    rw [hdata] at h1
    have hsplit : splitOnSpace ('B' :: 'e' :: 'a' :: 'r' :: 'e' :: 'r' :: ' ' :: c :: rest) =
        ['B', 'e', 'a', 'r', 'e', 'r'] :: splitOnSpace (c :: rest) :=
      splitOnSpace_after ['B', 'e', 'a', 'r', 'e', 'r'] (c :: rest) (by decide)
    rw [hsplit] at h1
    rcases hs : splitOnSpace (c :: rest) with _ | ⟨q, qs⟩
    · exact absurd hs (splitOnSpace_ne_nil _)
    · rw [hs] at h1
      cases qs with
      | nil =>
        have hq := splitOnSpace_single (c :: rest) q hs
        simp only at h1
        split at h1
        · simp only [Option.some.injEq] at h1
          rw [← h1, ← h2, hq]
        · cases h1
      | cons q2 qs2 => simp at h1
  · cases h2

theorem token_header_nonempty (r : Request) (t : String)
    (h : AuthMiddleware.token r = some t) : (r.Authorization == "") = false := by
  by_contra hne
  have heq : r.Authorization = "" := by simpa using hne
  unfold AuthMiddleware.token at h
  rw [heq] at h
  simp [splitOnSpace] at h

/-- When `ValidateJWT` answers `ErrExpiredToken`, the token has an `exp` claim
that does not lie after the clock reading. -/
theorem validateJWT_expired (lib : Lib) (s : Service) (t : String) (now : Time)
    (h : (s.ValidateJWT lib t now).2 = some Error.ErrExpiredToken) :
    ∃ (p : ParsedToken) (exp : Time),
      lib.parseUnverified t = some p ∧ p.Claims.ExpiresAt = some exp ∧ exp ≤ now := by
  unfold Service.ValidateJWT ParseWithClaims at h
  cases hp : lib.parseUnverified t with
  | none => simp [hp, errorsIs] at h
  | some p =>
    simp only [hp] at h
    cases hm : p.Method with
    | other alg => simp [hm, Service.keyFunc, errorsIs] at h
    | HMAC hash =>
      simp only [hm, Service.keyFunc, SigningMethod.Verify] at h
      cases hb : (lib.hmac hash s.jwtSecret p.SigningInput == p.Signature)
      · simp [hb, errorsIs] at h
      · simp only [hb, Bool.not_true, Bool.false_eq_true, if_false] at h
        cases hexp : p.Claims.ExpiresAt with
        | none =>
          exfalso
          unfold Validate at h
          simp only [hexp, List.nil_append] at h
          cases hnbf : p.Claims.NotBefore with
          | none => simp [hnbf] at h
          | some nbf =>
            by_cases hlt : now < nbf
            · simp [hnbf, hlt, errorsIs] at h
            · simp [hnbf, hlt] at h
        | some exp =>
          refine ⟨p, exp, rfl, hexp, ?_⟩
          by_contra hgt
          have hlt : now < exp := not_le.mp hgt
          unfold Validate at h
          simp only [hexp, hlt, if_true, List.nil_append] at h
          cases hnbf : p.Claims.NotBefore with
          | none => simp [hnbf] at h
          | some nbf =>
            by_cases hlt2 : now < nbf
            · simp [hnbf, hlt2, errorsIs] at h
            · simp [hnbf, hlt2] at h

/-- C20, as stated, fails in its last part: behind the middleware, the
request `demoCrossRequest` presents an access token that validates at the
clock reading of `RequireAuth` (899 s) and is expired at the clock reading of
`Logout` (900 s, its `exp`); the route answers 204 and `Logout` has run its
expired-token branch: the row invalidated is the one of the owner of the body
refresh token, user 7, not one of the user of the access token, user 42. -/
theorem logout_expired_branch_behind_middleware :
    AuthMiddleware.token demoCrossRequest = some demoAccessToken ∧
    demoService.ValidateJWT demoLib demoAccessToken (899 * Second) = (some demoClaims, none) ∧
    demoService.ValidateJWT demoLib demoAccessToken demoLogoutEnv.nowValidate =
      (none, some Error.ErrExpiredToken) ∧
    logoutRoute demoLib demoService (899 * Second) demoLogoutEnv demoCrossRequest demoTableAB =
      ({ status := 204, body := Body.empty }, [demoRow, { demoRowB with IsValid := false }]) := by
  decide

/-- C20 (amended): on the logout route as `main` wires it, a request whose
access token is expired when `RequireAuth` validates it is answered 401 by
`RequireAuth`, whatever handler stands behind it, so `Logout` is not invoked
and the table is left as it was whatever the body carries; so is every request
whose header gives `RequireAuth` no token that validates.  When `RequireAuth`
lets a request through, the route is `Logout` on that request, and the
expired-token branch of `Logout` is then taken only if the `exp` of the token
lies after the clock reading of `RequireAuth` and not after that of `Logout`.
Called on its own with an expired token and a body refresh token that the
lookup finds, `Logout` invalidates all tokens of the owner of that refresh
token and answers 204. -/
theorem logout_route_expired (lib : Lib) (s : Service) (db : Table) (r : Request)
    (nowAuth : Time) (env : LogoutEnv) :
    (∀ tok, AuthMiddleware.token r = some tok →
      s.ValidateJWT lib tok nowAuth = (none, some Error.ErrExpiredToken) →
      (∀ next, AuthMiddleware.RequireAuth lib s next nowAuth r db =
        (httpError "Autenticação expirada" 401, db)) ∧
      logoutRoute lib s nowAuth env r db = (httpError "Autenticação expirada" 401, db)) ∧
    ((∀ tok, AuthMiddleware.token r = some tok → (s.ValidateJWT lib tok nowAuth).2 ≠ none) →
      ∀ next, (AuthMiddleware.RequireAuth lib s next nowAuth r db).1.status = 401 ∧
        (AuthMiddleware.RequireAuth lib s next nowAuth r db).2 = db) ∧
    (∀ tok claims, AuthMiddleware.token r = some tok →
      s.ValidateJWT lib tok nowAuth = (some claims, none) →
      logoutRoute lib s nowAuth env r db =
        AuthHandler.Logout lib s env
          { r with ctxUserID := some claims.UserID, ctxEmail := some claims.Email } db ∧
      ∀ tok2, AuthHandler.logoutToken r = some tok2 →
        (s.ValidateJWT lib tok2 env.nowValidate).2 = some Error.ErrExpiredToken →
        ∃ exp, claims.ExpiresAt = some exp ∧ nowAuth < exp ∧ exp ≤ env.nowValidate) ∧
    (∀ tok req row, AuthHandler.logoutToken r = some tok →
      s.ValidateJWT lib tok env.nowValidate = (none, some Error.ErrExpiredToken) →
      r.refreshBody = some req → req.RefreshToken ≠ "" →
      Service.GetRefreshTokenByToken db req.RefreshToken env.getFault = (some row, none) →
      AuthHandler.Logout lib s env r db =
        ({ status := 204, body := Body.empty },
          (Service.InvalidateAllTokensForUser db row.UserID env.invalidateFault).2)) := by
  refine ⟨?_, ?_, ?_, ?_⟩
  · intro tok htok hval
    have hne := token_header_nonempty r tok htok
    have hmw : ∀ next, AuthMiddleware.RequireAuth lib s next nowAuth r db =
        (httpError "Autenticação expirada" 401, db) := by
      intro next
      unfold AuthMiddleware.RequireAuth
      simp [hne, htok, hval]
    exact ⟨hmw, hmw _⟩
  · intro hall next
    unfold AuthMiddleware.RequireAuth
    split
    · exact ⟨rfl, rfl⟩
    · cases htok : AuthMiddleware.token r with
      | none => exact ⟨rfl, rfl⟩
      | some tok =>
        have herr := hall tok htok
        rcases hv : s.ValidateJWT lib tok nowAuth with ⟨c, e⟩
        rw [hv] at herr
        cases e with
        | none => exact absurd rfl herr
        | some err =>
          simp only [hv]
          by_cases hE : (err == Error.ErrExpiredToken) = true
          · simp [hE, httpError]
          · simp [hE, httpError]
  · intro tok claims htok hval
    have hne := token_header_nonempty r tok htok
    constructor
    · unfold logoutRoute AuthMiddleware.RequireAuth
      simp [hne, htok, hval]
    · intro tok2 htok2 hexpired
      have heq := logoutToken_eq_token r tok tok2 htok htok2
      subst heq
      have herr : (s.ValidateJWT lib tok2 nowAuth).2 = none := by rw [hval]
      obtain ⟨p, _, hp, _, _, hexp, _, hres⟩ := validateJWT_accepts lib s tok2 nowAuth herr
      rw [hres] at hval
      simp only [Prod.mk.injEq, Option.some.injEq, and_true] at hval
      obtain ⟨p2, exp, hp2, hexp2, hle⟩ := validateJWT_expired lib s tok2 env.nowValidate hexpired
      rw [hp] at hp2
      cases hp2
      rw [← hval]
      exact ⟨exp, hexp2, hexp exp hexp2, hle⟩
  · intro tok req row htok hval hbody hT hrow
    unfold AuthHandler.Logout
    have hTb : (req.RefreshToken != "") = true := by simpa using hT
    simp [htok, hval, hbody, hTb, hrow]

theorem logout_route_expired_witness :
    AuthMiddleware.token demoCrossRequest = some demoAccessToken ∧
    demoService.ValidateJWT demoLib demoAccessToken (900 * Second) =
      (none, some Error.ErrExpiredToken) ∧
    logoutRoute demoLib demoService (900 * Second) demoLogoutEnv demoCrossRequest demoTableAB =
      (httpError "Autenticação expirada" 401, demoTableAB) :=
  ⟨by decide, by decide,
    ((logout_route_expired demoLib demoService demoTableAB demoCrossRequest (900 * Second)
      demoLogoutEnv).1 demoAccessToken (by decide) (by decide)).2⟩

end WhatsappLead
